import Mathlib

/-!
Verification of the linbo-docker authority API and provisioning worker.

This development embeds the Python source of the repository shallowly in
Lean: Python `str` values are modelled as `List Char` (`Str`), Python
`dict` as an insertion-ordered association list, file timestamps as `Int`,
and the monotonic clock of the rate limiter as `ℚ`.  Case mappings, the
`\d`, `\s` classes of the regular expressions, and the whitespace set of
`str.strip` / `int()` are modelled over ASCII; the non-ASCII extensions of
the Python semantics play no role in any statement below.  Cryptographic
hash functions (`hashlib.sha256`, `hashlib.md5`) and RFC-1123 date
formatting/parsing are taken as parameters of the definitions that use
them, because they are Python standard-library primitives, not code of the
repository: every theorem about them holds for an arbitrary choice of
these parameters.
-/

/-! ## Python string primitives -/

/-- Python `str` modelled as a list of characters. -/
abbrev Str := List Char

/-- Shorthand for writing concrete `Str` values from Lean string literals. -/
def pys (s : String) : Str := s.data

/-- ASCII whitespace recognized by Python `str.strip()` and `int()`
(space, tab, newline, carriage return, vertical tab, form feed). -/
def pyIsSpace (c : Char) : Bool :=
  c = ' ' || c = '\t' || c = '\n' || c = '\x0d' || c = '\x0b' || c = '\x0c'

/-- Python `str.lstrip()`. -/
def pyLstrip (s : Str) : Str := s.dropWhile pyIsSpace

/-- Python `str.rstrip()`. -/
def pyRstrip (s : Str) : Str := (s.reverse.dropWhile pyIsSpace).reverse

/-- Python `str.strip()`. -/
def pyStrip (s : Str) : Str := pyRstrip (pyLstrip s)

/-- Python `s.split(sep)` for a one-character separator: no collapsing of
adjacent separators, and the empty string yields `[""]`. -/
def pySplit (sep : Char) : Str → List Str
  | [] => [[]]
  | c :: rest =>
    match pySplit sep rest with
    | [] => if c = sep then [[], []] else [[c]]
    | s :: ss => if c = sep then [] :: s :: ss else (c :: s) :: ss

/-- Line-end characters of Python `str.splitlines()` other than `'\r'`
(which is handled separately so that `"\r\n"` counts as one terminator). -/
def pyIsLineEnd (c : Char) : Bool :=
  c = '\n' || c = '\x0b' || c = '\x0c' || c = '\x1c' || c = '\x1d' ||
  c = '\x1e' || c.toNat = 133 || c.toNat = 8232 || c.toNat = 8233

/-- Worker loop of `pySplitlines`, carrying the current line. -/
def pySplitlinesAux (cur : Str) : Str → List Str
  | [] => if cur = [] then [] else [cur]
  | '\x0d' :: '\n' :: rest => cur :: pySplitlinesAux [] rest
  | '\x0d' :: rest => cur :: pySplitlinesAux [] rest
  | c :: rest =>
    if pyIsLineEnd c then cur :: pySplitlinesAux [] rest
    else pySplitlinesAux (cur ++ [c]) rest

/-- Python `str.splitlines()`: no trailing empty line for a trailing
terminator, `""` yields `[]`. -/
def pySplitlines (s : Str) : List Str := pySplitlinesAux [] s

/-- ASCII upper-casing of one character (Python `str.upper`). -/
def upChar (c : Char) : Char :=
  if 97 ≤ c.toNat ∧ c.toNat ≤ 122 then Char.ofNat (c.toNat - 32) else c

/-- ASCII lower-casing of one character (Python `str.lower`). -/
def lowChar (c : Char) : Char :=
  if 65 ≤ c.toNat ∧ c.toNat ≤ 90 then Char.ofNat (c.toNat + 32) else c

/-- Python `str.upper()` (ASCII fragment). -/
def pyUpper (s : Str) : Str := s.map upChar

/-- Python `str.lower()` (ASCII fragment). -/
def pyLower (s : Str) : Str := s.map lowChar

/-- Replace `'-'` by `':'` in one character, for `str.replace("-", ":")`. -/
def dashColonChar (c : Char) : Char := if c = '-' then ':' else c

/-- Python `s.replace("-", ":")`. -/
def pyDashToColon (s : Str) : Str := s.map dashColonChar

/-- Does the string start with the given character (Python `startswith`)? -/
def startsWithChar (c : Char) : Str → Bool
  | [] => false
  | d :: _ => d = c

/-- Does the string end with the given character (Python `endswith`)? -/
def endsWithChar (c : Char) (s : Str) : Bool := s.getLast? = some c

/-- Index of the first occurrence of a character, Python `s.index(c)`
restricted to the guarded uses in the source (`None` when absent). -/
def idxOfChar (c : Char) : Str → Option Nat
  | [] => none
  | d :: rest =>
    if d = c then some 0 else (idxOfChar c rest).map (· + 1)

/-- Index of the first occurrence of the two-character pattern `a b`,
modelling Python `s.find(" #")` (which returns `-1`, here `none`). -/
def idxOfPair (a b : Char) : Str → Option Nat
  | [] => none
  | [_] => none
  | x :: y :: rest =>
    if x = a ∧ y = b then some 0 else (idxOfPair a b (y :: rest)).map (· + 1)

/-- Python `line.partition(sep)` restricted to its guarded use: the text
before the first occurrence of `sep` and the text after it. -/
def partitionAt (sep : Char) : Str → Str × Str
  | [] => ([], [])
  | c :: rest =>
    if c = sep then ([], rest)
    else
      let (a, b) := partitionAt sep rest
      (c :: a, b)

/-- Digit tail of a Python integer literal: digits with single interior
underscores, accumulating the value. -/
def pyDigitsVal (acc : Nat) : Str → Option Nat
  | [] => some acc
  | '_' :: c :: rest =>
    if c.isDigit then pyDigitsVal (acc * 10 + (c.toNat - 48)) rest else none
  | ['_'] => none
  | c :: rest =>
    if c.isDigit then pyDigitsVal (acc * 10 + (c.toNat - 48)) rest else none

/-- Unsigned part of a Python integer literal: at least one digit. -/
def pyUnsignedVal : Str → Option Nat
  | [] => none
  | c :: rest =>
    if c.isDigit then pyDigitsVal (c.toNat - 48) rest else none

/-- Python `int(s)` over its ASCII fragment: surrounding whitespace, an
optional sign, decimal digits with single interior underscores; `none`
models the `ValueError`. -/
def pyParseInt (s : Str) : Option Int :=
  match pyStrip s with
  | '+' :: rest => (pyUnsignedVal rest).map Int.ofNat
  | '-' :: rest => (pyUnsignedVal rest).map (fun n => -(n : Int))
  | rest => (pyUnsignedVal rest).map Int.ofNat

/-- ASCII decimal digit test (the `\d` of the source's regexes, whose
non-ASCII digits are not modelled). -/
def isDigitChar (c : Char) : Bool := c.isDigit

/-- Hexadecimal digit test, the class `[0-9a-fA-F]` of `_MAC_RE`. -/
def isHexChar (c : Char) : Bool :=
  c.isDigit || (97 ≤ c.toNat && c.toNat ≤ 102) || (65 ≤ c.toNat && c.toNat ≤ 70)

/-- The MAC regex `^([0-9a-fA-F]{2}[:\-]){5}[0-9a-fA-F]{2}$` of
`lmn_authority/adapters/devices.py`. -/
def macRe (s : Str) : Bool :=
  match s with
  | [a1, a2, s1, b1, b2, s2, c1, c2, s3, d1, d2, s4, e1, e2, s5, f1, f2] =>
    isHexChar a1 && isHexChar a2 && (s1 = ':' || s1 = '-') &&
    isHexChar b1 && isHexChar b2 && (s2 = ':' || s2 = '-') &&
    isHexChar c1 && isHexChar c2 && (s3 = ':' || s3 = '-') &&
    isHexChar d1 && isHexChar d2 && (s4 = ':' || s4 = '-') &&
    isHexChar e1 && isHexChar e2 && (s5 = ':' || s5 = '-') &&
    isHexChar f1 && isHexChar f2
  | _ => false

/-- One octet of `_IP_RE`: `25[0-5]|2[0-4]\d|[01]?\d\d?`. -/
def ipOctetRe (s : Str) : Bool :=
  match s with
  | [a] => isDigitChar a
  | [a, b] => isDigitChar a && isDigitChar b
  | [a, b, c] =>
    (a = '2' && b = '5' && (48 ≤ c.toNat && c.toNat ≤ 53)) ||
    (a = '2' && (48 ≤ b.toNat && b.toNat ≤ 52) && isDigitChar c) ||
    ((a = '0' || a = '1') && isDigitChar b && isDigitChar c)
  | _ => false

/-- The IPv4 regex of `devices.py`: four octets joined by dots. -/
def ipRe (s : Str) : Bool :=
  match pySplit '.' s with
  | [a, b, c, d] => ipOctetRe a && ipOctetRe b && ipOctetRe c && ipOctetRe d
  | _ => false

/-- Cursor regex `^\d+:\d+$` of `lmn_authority/routers/delta.py`. -/
def cursorRe (s : Str) : Bool :=
  match pySplit ':' s with
  | [a, b] => !a.isEmpty && !b.isEmpty && a.all isDigitChar && b.all isDigitChar
  | _ => false

/-- Insertion-ordered Python `dict` update: replacing an existing key keeps
its original position, a new key is appended at the end. -/
def dictUpsert (k : Str) (v : β) : List (Str × β) → List (Str × β)
  | [] => [(k, v)]
  | (k', v') :: rest =>
    if k' = k then (k, v) :: rest else (k', v') :: dictUpsert k v rest

/-- Python `dict` lookup (first matching key). -/
def dictGet (k : Str) : List (Str × β) → Option β
  | [] => none
  | (k', v') :: rest => if k' = k then some v' else dictGet k rest

/-- Python `';'.join(xs)` for one-character separators. -/
def pyJoin (sep : Char) : List Str → Str
  | [] => []
  | [x] => x
  | x :: y :: rest => x ++ [sep] ++ pyJoin sep (y :: rest)

/-- Boolean duplicate test on a list of strings. -/
def hasDup : List Str → Bool
  | [] => false
  | x :: xs => xs.contains x || hasDup xs

/-- Render a natural number in decimal. -/
def natToStr (n : Nat) : Str := Nat.toDigits 10 n

/-- Render an integer in decimal (Python f-string rendering of an `int`). -/
def intToStr (n : Int) : Str :=
  if n < 0 then '-' :: natToStr n.natAbs else natToStr n.natAbs

/-! ## Devices adapter (`lmn_authority/adapters/devices.py`) -/

namespace Devices

/-- The `HostData` record built by `DevicesAdapter.load` for one inventory
row, with `updatedAt` as an abstract mtime (`Int`). -/
structure HostData where
  mac : Str
  hostname : Str
  ip : Option Str
  room : Str
  school : Str
  hostgroup : Str
  pxeEnabled : Bool
  pxeFlag : Int
  dhcpOptions : Str
  startConfId : Str
  sophomorixRole : Str
  updatedAt : Int
  deriving Repr, DecidableEq

/-- The source's `_normalize_mac`: strip, match `_MAC_RE`, upper-case and
replace `'-'` by `':'`; `none` for an invalid MAC. -/
def normalizeMac (raw : Str) : Option Str :=
  let r := pyStrip raw
  if macRe r then some (pyDashToColon (pyUpper r)) else none

/-- The source's `_validate_ip`: strip, match `_IP_RE`; `none` if invalid. -/
def validateIp (raw : Str) : Option Str :=
  let r := pyStrip raw
  if ipRe r then some r else none

/-- Pad a field list on the right with empty strings up to 15 entries
(the `while len(fields) < 15: fields.append("")` loop). -/
def padTo15 (fields : List Str) : List Str :=
  fields ++ List.replicate (15 - fields.length) []

/-- Column 10 parsed as the PXE flag: empty string means 1, a failed
`int()` means 1. -/
def parsePxeFlag (s : Str) : Int :=
  if s = [] then 1 else (pyParseInt s).getD 1

/-- The body of the per-line loop of `DevicesAdapter.load`: `none` for a
skipped line, `some` record for an accepted one. -/
def parseLine (rawLine : Str) (mtime : Int) : Option HostData :=
  let line := pyStrip rawLine
  if line = [] then none
  else if startsWithChar '#' line then none
  else
    let fields := pySplit ';' line
    if fields.length < 5 then none
    else
      let fields := padTo15 (fields.take 15)
      let room := pyStrip (fields.getD 0 [])
      let hostname := pyStrip (fields.getD 1 [])
      let config := pyStrip (fields.getD 2 [])
      let rawMac := pyStrip (fields.getD 3 [])
      let rawIp := pyStrip (fields.getD 4 [])
      let sophomorixRole := pyStrip (fields.getD 8 [])
      let pxeFlag := parsePxeFlag (pyStrip (fields.getD 10 []))
      match normalizeMac rawMac with
      | none => none
      | some mac =>
        let ip := if rawIp = [] then none else validateIp rawIp
        let pxeEnabled := decide (0 < pxeFlag ∧ pyLower config ≠ pys "nopxe")
        some
          { mac := mac, hostname := hostname, ip := ip, room := room,
            school := pys "default-school", hostgroup := config,
            pxeEnabled := pxeEnabled, pxeFlag := pxeFlag,
            dhcpOptions := [], startConfId := config,
            sophomorixRole := sophomorixRole, updatedAt := mtime }

/-- Fold the per-line loop over a list of lines, building the MAC-keyed
host dictionary (duplicate MAC: later assignment overwrites). -/
def buildHostsLines (lines : List Str) (mtime : Int) : List (Str × HostData) :=
  lines.foldl
    (fun m l =>
      match parseLine l mtime with
      | some h => dictUpsert h.mac h m
      | none => m)
    []

/-- The host map built by `load` from the file text. -/
def buildHosts (text : Str) (mtime : Int) : List (Str × HostData) :=
  buildHostsLines (pySplitlines text) mtime

/-- Adapter state: the parsed host map and `last_modified`. -/
structure DevState where
  hosts : List (Str × HostData)
  lastModified : Option Int
  deriving Repr, DecidableEq

/-- Outcome of `self._path.read_text(...)`: the file text and mtime, or a
`FileNotFoundError`, or another `OSError`. -/
inductive ReadOutcome where
  | ok (text : Str) (mtime : Int)
  | fileNotFound
  | ioError
  deriving Repr, DecidableEq

/-- The source's `DevicesAdapter.load`: on a read failure return `False`
and leave the state untouched; on success build the new map to completion
and swap it in together with the new `last_modified`. -/
def load (r : ReadOutcome) (st : DevState) : Bool × DevState :=
  match r with
  | .fileNotFound => (false, st)
  | .ioError => (false, st)
  | .ok text mtime =>
    (true, { hosts := buildHosts text mtime, lastModified := some mtime })

/-- The source's `DevicesAdapter.get_host`: case- and separator-insensitive
lookup by `mac.upper().replace("-", ":")`. -/
def getHost (st : DevState) (mac : Str) : Option HostData :=
  dictGet (pyDashToColon (pyUpper mac)) st.hosts

end Devices

/-! ## Rate limiter (`lmn_authority/middleware/rate_limit.py`) -/

namespace RateLimit

/-- Result of one `RateLimitMiddleware.dispatch` for an authenticated,
non-exempt request: either the request proceeds with the updated window,
or a 429 response carrying the `Retry-After` header value is returned and
the window keeps only the evicted list. -/
inductive Outcome where
  | proceed (window : List ℚ)
  | limited (status : Nat) (retryAfter : Int) (window : List ℚ)
  deriving Repr, DecidableEq

/-- Python `int()` applied to a float: truncation toward zero. -/
def pyIntTrunc (q : ℚ) : Int := if 0 ≤ q then ⌊q⌋ else ⌈q⌉

/-- The eviction step `window[:] = [t for t in window if t > cutoff]`. -/
def evict (now : ℚ) (window : List ℚ) : List ℚ :=
  window.filter (fun t => now - 60 < t)

/-- The core of `dispatch` (after the exempt-path and missing-token
bypasses): evict old entries, then either respond 429 with
`Retry-After = max(1, int(60 - (now - window[0])))`, or append `now` and
continue. -/
def dispatch (rpm : Nat) (now : ℚ) (window : List ℚ) : Outcome :=
  let w := evict now window
  if rpm ≤ w.length then
    .limited 429 (max 1 (pyIntTrunc (60 - (now - w.headD 0)))) w
  else
    .proceed (w ++ [now])

end RateLimit

/-! ## Conditional DHCP export (`lmn_authority/routers/dhcp.py`) -/

namespace Dhcp

/-- A plain-text HTTP response: status, body, headers in insertion order. -/
structure HttpResponse where
  status : Nat
  body : Str
  headers : List (Str × Str)
  deriving Repr, DecidableEq

/-- The entity tag of `_conditional_response`:
`'"' + md5(body).hexdigest()[:12] + '"'`, with the MD5 hex digest taken as
the parameter `md5hex`. -/
def etagOf (md5hex : Str → Str) (content : Str) : Str :=
  '"' :: (md5hex content).take 12 ++ ['"']

/-- The headers shared by every branch of `_conditional_response`: `ETag`,
then `Last-Modified` when the adapter has a `last_modified` (rendered by
the parameter `fmtDate`, modelling `email.utils.format_datetime`). -/
def headersOf (md5hex : Str → Str) (fmtDate : Int → Str) (content : Str)
    (lastModified : Option Int) : List (Str × Str) :=
  (pys "ETag", etagOf md5hex content) ::
    (match lastModified with
     | some lm => [(pys "Last-Modified", fmtDate lm)]
     | none => [])

/-- The `If-None-Match` test of `_conditional_response`: the header is
present, truthy (non-empty) and equal to the current entity tag. -/
def inmMatches (md5hex : Str → Str) (content : Str)
    (ifNoneMatch : Option Str) : Bool :=
  match ifNoneMatch with
  | some v => !v.isEmpty && v = etagOf md5hex content
  | none => false

/-- The `If-Modified-Since` test of `_conditional_response`: the adapter
has a `last_modified`, the header is present and truthy, it parses
(`parseDate` models `email.utils.parsedate_to_datetime`; `none` stands for
any raised exception, which the source swallows), and
`last_modified <= client_time`. -/
def imsMatches (parseDate : Str → Option Int) (lastModified : Option Int)
    (ifModifiedSince : Option Str) : Bool :=
  match lastModified, ifModifiedSince with
  | some lm, some s =>
    !s.isEmpty &&
      (match parseDate s with
       | some t => decide (lm ≤ t)
       | none => false)
  | _, _ => false

/-- The source's `_conditional_response`: a matching `If-None-Match` or a
satisfied `If-Modified-Since` yields a body-less 304 with the same
headers; otherwise the full body is returned with those headers. -/
def conditionalResponse (md5hex : Str → Str) (fmtDate : Int → Str)
    (parseDate : Str → Option Int) (ifNoneMatch : Option Str)
    (ifModifiedSince : Option Str) (content : Str)
    (lastModified : Option Int) : HttpResponse :=
  let headers := headersOf md5hex fmtDate content lastModified
  if inmMatches md5hex content ifNoneMatch then
    { status := 304, body := [], headers := headers }
  else if imsMatches parseDate lastModified ifModifiedSince then
    { status := 304, body := [], headers := headers }
  else
    { status := 200, body := content, headers := headers }

end Dhcp

/-! ## Changelog / delta feed (`lmn_authority/services/delta_feed.py` and
`lmn_authority/routers/delta.py`) -/

namespace Delta

/-- One row of the `changelog` table, listed in `id` (insertion) order. -/
structure Row where
  ts : Int
  seq : Int
  etype : Str
  eid : Str
  action : Str
  deriving Repr, DecidableEq

/-- The `EntitySnapshot` provided by the injected entity provider. -/
structure EntitySnapshot where
  hostMacs : List Str
  startconfIds : List Str
  configIds : List Str
  deriving Repr, DecidableEq

/-- The wire `DeltaResponse`. -/
structure DeltaResponse where
  nextCursor : Str
  hostsChanged : List Str
  startConfsChanged : List Str
  configsChanged : List Str
  dhcpChanged : Bool
  deletedHosts : List Str
  deletedStartConfs : List Str
  deriving Repr, DecidableEq

/-- Cursor rendering `f"{ts}:{seq}"`. -/
def cursorFmt (ts seq : Int) : Str := intToStr ts ++ [':'] ++ intToStr seq

/-- The source's `_latest_cursor`: the newest row's cursor, or — for an
empty log — a synthetic snapshot row inserted now.  Returns the cursor
string together with the updated log and sequence counter. -/
def latestCursor (log : List Row) (now seqCtr : Int) :
    Str × List Row × Int :=
  match log.getLast? with
  | some r => (cursorFmt r.ts r.seq, log, seqCtr)
  | none =>
    let s := seqCtr + 1
    (cursorFmt now s,
     log ++ [{ ts := now, seq := s, etype := pys "_synthetic",
               eid := pys "_snapshot", action := pys "snapshot" }],
     s)

/-- The source's `_full_snapshot`: current entity sets as the changed
lists, `dhcpChanged = True`, empty deletion lists. -/
def fullSnapshot (log : List Row) (snap : EntitySnapshot) (now seqCtr : Int) :
    DeltaResponse × List Row × Int :=
  let (nc, log', s') := latestCursor log now seqCtr
  ({ nextCursor := nc, hostsChanged := snap.hostMacs,
     startConfsChanged := snap.startconfIds, configsChanged := snap.configIds,
     dhcpChanged := true, deletedHosts := [], deletedStartConfs := [] },
   log', s')

/-- Cursor parsing of `get_changes`: `since.split(":")` unpacked into
exactly two parts, each through `int()`; any failure is the caught
`ValueError`. -/
def parseCursor (since : Str) : Option (Int × Int) :=
  match pySplit ':' since with
  | [a, b] =>
    match pyParseInt a, pyParseInt b with
    | some x, some y => some (x, y)
    | _, _ => none
  | _ => none

/-- The source's `_is_valid_cursor`: the exact pair still exists. -/
def isValidCursor (log : List Row) (ts sq : Int) : Bool :=
  log.any (fun r => r.ts == ts && r.seq == sq)

/-- The incremental query's WHERE clause:
`(cursor_ts > ?) OR (cursor_ts = ? AND cursor_seq > ?)`. -/
def afterRows (log : List Row) (ts sq : Int) : List Row :=
  log.filter (fun r => decide (ts < r.ts) || (r.ts == ts && decide (sq < r.seq)))

/-- The `ORDER BY cursor_ts, cursor_seq` of the incremental query. -/
def sortRows (rows : List Row) : List Row :=
  rows.mergeSort
    (fun r r' => decide (r.ts < r'.ts) || (r.ts == r'.ts && decide (r.seq ≤ r'.seq)))

/-- Accumulator of the per-row loop of `get_changes`. -/
structure Accum where
  hostsChanged : List Str
  startConfsChanged : List Str
  configsChanged : List Str
  dhcpChanged : Bool
  deletedHosts : List Str
  deletedStartConfs : List Str
  deriving Repr, DecidableEq

/-- Start value of the per-row loop. -/
def accumInit : Accum :=
  { hostsChanged := [], startConfsChanged := [], configsChanged := [],
    dhcpChanged := false, deletedHosts := [], deletedStartConfs := [] }

/-- One iteration of the per-row loop of `get_changes`. -/
def accumStep (a : Accum) (r : Row) : Accum :=
  if r.action = pys "delete" then
    if r.etype = pys "host" then
      { a with deletedHosts := a.deletedHosts ++ [r.eid] }
    else if r.etype = pys "startconf" then
      { a with deletedStartConfs := a.deletedStartConfs ++ [r.eid] }
    else a
  else
    if r.etype = pys "host" then
      { a with hostsChanged := a.hostsChanged ++ [r.eid], dhcpChanged := true }
    else if r.etype = pys "startconf" then
      { a with startConfsChanged := a.startConfsChanged ++ [r.eid] }
    else if r.etype = pys "config" then
      { a with configsChanged := a.configsChanged ++ [r.eid] }
    else if r.etype = pys "dhcp" then
      { a with dhcpChanged := true }
    else a

/-- The source's `DeltaFeedService.get_changes`: empty, malformed or stale
cursor gives a full snapshot, otherwise the accumulated incremental
response.  Returns the response with the (possibly extended) log and
sequence counter. -/
def getChangesService (log : List Row) (snap : EntitySnapshot)
    (now seqCtr : Int) (since : Str) : DeltaResponse × List Row × Int :=
  if since = [] then fullSnapshot log snap now seqCtr
  else
    match parseCursor since with
    | none => fullSnapshot log snap now seqCtr
    | some (ts, sq) =>
      if !isValidCursor log ts sq then fullSnapshot log snap now seqCtr
      else
        let a := (sortRows (afterRows log ts sq)).foldl accumStep accumInit
        let (nc, log', s') := latestCursor log now seqCtr
        ({ nextCursor := nc, hostsChanged := a.hostsChanged,
           startConfsChanged := a.startConfsChanged,
           configsChanged := a.configsChanged, dhcpChanged := a.dhcpChanged,
           deletedHosts := a.deletedHosts,
           deletedStartConfs := a.deletedStartConfs },
         log', s')

/-- The `/changes` endpoint of `routers/delta.py`: a non-empty `since` not
matching `_CURSOR_RE` is rejected with a 400 `VALIDATION_ERROR` before the
service is consulted. -/
def getChangesEndpoint (log : List Row) (snap : EntitySnapshot)
    (now seqCtr : Int) (since : Str) :
    Except (Nat × Str) DeltaResponse :=
  if since ≠ [] ∧ cursorRe since = false then
    .error (400, pys "VALIDATION_ERROR")
  else
    .ok (getChangesService log snap now seqCtr since).1

end Delta

/-! ## StartConf adapter (`lmn_authority/adapters/startconf.py`) -/

namespace StartConf

/-- The parsed `[LINBO]` header. -/
structure LinboData where
  server : Str
  cache : Str
  group : Str
  rootTimeout : Int
  autoPartition : Bool
  autoFormat : Bool
  autoInitCache : Bool
  downloadType : Str
  systemType : Str
  kernelOptions : Str
  locale : Str
  guiDisabled : Bool
  useMinimalLayout : Bool
  bootTimeout : Int
  deriving Repr, DecidableEq

/-- One `[Partition]` block. -/
structure PartitionData where
  device : Str
  label : Str
  size : Str
  id : Str
  fsType : Str
  bootable : Bool
  deriving Repr, DecidableEq

/-- One `[OS]` block. -/
structure OsData where
  name : Str
  description : Str
  version : Str
  iconname : Str
  baseimage : Str
  boot : Str
  root : Str
  kernel : Str
  initrd : Str
  append : Str
  startEnabled : Bool
  syncEnabled : Bool
  newEnabled : Bool
  autostart : Bool
  autostartTimeout : Int
  defaultAction : Str
  hidden : Bool
  deriving Repr, DecidableEq

/-- The derived grub policy. -/
structure GrubPolicyData where
  timeout : Int
  defaultEntry : Int
  hiddenMenu : Bool
  deriving Repr, DecidableEq

/-- The defaults of the `LinboData` literal at the top of
`_parse_startconf`. -/
def linboInit : LinboData :=
  { server := [], cache := [], group := [], rootTimeout := 600,
    autoPartition := false, autoFormat := false, autoInitCache := false,
    downloadType := pys "torrent", systemType := pys "efi64",
    kernelOptions := [], locale := [], guiDisabled := false,
    useMinimalLayout := false, bootTimeout := 5 }

/-- The fresh `PartitionData` created at a `[Partition]` header. -/
def partitionInit : PartitionData :=
  { device := [], label := [], size := [], id := [], fsType := [],
    bootable := false }

/-- The fresh `OsData` created at an `[OS]` header. -/
def osInit : OsData :=
  { name := [], description := [], version := [], iconname := [],
    baseimage := [], boot := [], root := [], kernel := [], initrd := [],
    append := [], startEnabled := true, syncEnabled := true,
    newEnabled := true, autostart := false, autostartTimeout := 0,
    defaultAction := pys "sync", hidden := false }

/-- The source's `_parse_bool`: `yes|true|1` case-insensitively. -/
def parseBool (value : Str) : Bool :=
  pyLower (pyStrip value) = pys "yes" ∨ pyLower (pyStrip value) = pys "true" ∨
    pyLower (pyStrip value) = pys "1"

/-- The source's `_parse_int`: empty or unparsable value falls back to the
per-key default. -/
def parseIntDef (value : Str) (dflt : Int) : Int :=
  let v := pyStrip value
  if v = [] then dflt
  else
    match pyParseInt v with
    | some n => n
    | none => dflt

/-- Parser state of `_parse_startconf`. -/
structure PState where
  linbo : LinboData
  partitions : List PartitionData
  osEntries : List OsData
  currentSection : Option Str
  currentPartition : Option PartitionData
  currentOs : Option OsData
  deriving Repr, DecidableEq

/-- Start state of `_parse_startconf`. -/
def pstateInit : PState :=
  { linbo := linboInit, partitions := [], osEntries := [],
    currentSection := none, currentPartition := none, currentOs := none }

/-- Commit any pending partition or OS block (done at a section header and
at end of file). -/
def commitBlocks (st : PState) : PState :=
  let st :=
    match st.currentPartition with
    | some p => { st with partitions := st.partitions ++ [p],
                          currentPartition := none }
    | none => st
  match st.currentOs with
  | some o => { st with osEntries := st.osEntries ++ [o], currentOs := none }
  | none => st

/-- The keys recognized in the `[LINBO]` section. -/
def linboKeys : List Str :=
  [pys "server", pys "cache", pys "group", pys "roottimeout",
   pys "autopartition", pys "autoformat", pys "autoinitcache",
   pys "downloadtype", pys "systemtype", pys "kerneloptions", pys "locale",
   pys "guidisabled", pys "useminimallayout", pys "boottimeout"]

/-- The keys recognized in a `[Partition]` section. -/
def partitionKeys : List Str :=
  [pys "dev", pys "label", pys "size", pys "id", pys "fstype", pys "bootable"]

/-- The keys recognized in an `[OS]` section. -/
def osKeys : List Str :=
  [pys "name", pys "description", pys "version", pys "iconname",
   pys "baseimage", pys "boot", pys "root", pys "kernel", pys "initrd",
   pys "append", pys "startenabled", pys "syncenabled", pys "newenabled",
   pys "autostart", pys "autostarttimeout", pys "defaultaction", pys "hidden"]

/-- The `[LINBO]` key dispatch chain. -/
def applyLinbo (l : LinboData) (key value : Str) : LinboData :=
  if key = pys "server" then { l with server := value }
  else if key = pys "cache" then { l with cache := value }
  else if key = pys "group" then { l with group := value }
  else if key = pys "roottimeout" then
    { l with rootTimeout := parseIntDef value 600 }
  else if key = pys "autopartition" then
    { l with autoPartition := parseBool value }
  else if key = pys "autoformat" then { l with autoFormat := parseBool value }
  else if key = pys "autoinitcache" then
    { l with autoInitCache := parseBool value }
  else if key = pys "downloadtype" then { l with downloadType := value }
  else if key = pys "systemtype" then { l with systemType := value }
  else if key = pys "kerneloptions" then { l with kernelOptions := value }
  else if key = pys "locale" then { l with locale := value }
  else if key = pys "guidisabled" then { l with guiDisabled := parseBool value }
  else if key = pys "useminimallayout" then
    { l with useMinimalLayout := parseBool value }
  else if key = pys "boottimeout" then
    { l with bootTimeout := parseIntDef value 5 }
  else l

/-- The `[Partition]` key dispatch chain. -/
def applyPartition (p : PartitionData) (key value : Str) : PartitionData :=
  if key = pys "dev" then { p with device := value }
  else if key = pys "label" then { p with label := value }
  else if key = pys "size" then { p with size := value }
  else if key = pys "id" then { p with id := value }
  else if key = pys "fstype" then { p with fsType := value }
  else if key = pys "bootable" then { p with bootable := parseBool value }
  else p

/-- The `[OS]` key dispatch chain. -/
def applyOs (o : OsData) (key value : Str) : OsData :=
  if key = pys "name" then { o with name := value }
  else if key = pys "description" then { o with description := value }
  else if key = pys "version" then { o with version := value }
  else if key = pys "iconname" then { o with iconname := value }
  else if key = pys "baseimage" then { o with baseimage := value }
  else if key = pys "boot" then { o with boot := value }
  else if key = pys "root" then { o with root := value }
  else if key = pys "kernel" then { o with kernel := value }
  else if key = pys "initrd" then { o with initrd := value }
  else if key = pys "append" then { o with append := value }
  else if key = pys "startenabled" then
    { o with startEnabled := parseBool value }
  else if key = pys "syncenabled" then { o with syncEnabled := parseBool value }
  else if key = pys "newenabled" then { o with newEnabled := parseBool value }
  else if key = pys "autostart" then { o with autostart := parseBool value }
  else if key = pys "autostarttimeout" then
    { o with autostartTimeout := parseIntDef value 0 }
  else if key = pys "defaultaction" then { o with defaultAction := value }
  else if key = pys "hidden" then { o with hidden := parseBool value }
  else o

/-- Strip an inline comment from a section-header line: when the line
starts with `'['` and contains `'#'`, keep only the text before the first
`'#'`, stripped. -/
def headerCommentStrip (line : Str) : Str :=
  if line.contains '#' && startsWithChar '[' line then
    match idxOfChar '#' line with
    | some i => pyStrip (line.take i)
    | none => line
  else line

/-- A `key = value` line: strip a trailing `" #..."` comment from the raw
value (the `raw_value.find(" #")` logic), then strip whitespace. -/
def valueOfRaw (rawValue : Str) : Str :=
  pyStrip
    (match idxOfPair ' ' '#' rawValue with
     | some i => rawValue.take i
     | none => rawValue)

/-- One iteration of the line loop of `_parse_startconf`. -/
def processLine (st : PState) (rawLine : Str) : PState :=
  let line := pyStrip rawLine
  if line = [] then st
  else if startsWithChar '#' line then st
  else
    let line := headerCommentStrip line
    if startsWithChar '[' line && endsWithChar ']' line then
      let st := commitBlocks st
      let name := pyUpper (pyStrip (line.drop 1 |>.dropLast))
      let st := { st with currentSection := some name }
      if name = pys "PARTITION" then
        { st with currentPartition := some partitionInit }
      else if name = pys "OS" then { st with currentOs := some osInit }
      else st
    else if !line.contains '=' then st
    else
      let (key0, rawValue) := partitionAt '=' line
      let key := pyLower (pyStrip key0)
      let value := valueOfRaw rawValue
      match st.currentSection with
      | none => st
      | some sec =>
        if sec = pys "LINBO" then { st with linbo := applyLinbo st.linbo key value }
        else if sec = pys "PARTITION" then
          match st.currentPartition with
          | some p => { st with currentPartition := some (applyPartition p key value) }
          | none => st
        else if sec = pys "OS" then
          match st.currentOs with
          | some o => { st with currentOs := some (applyOs o key value) }
          | none => st
        else st

/-- The source's `_parse_startconf`: fold the line loop over
`text.splitlines()` and commit any trailing block. -/
def parseStartconf (text : Str) :
    LinboData × List PartitionData × List OsData :=
  let st := commitBlocks ((pySplitlines text).foldl processLine pstateInit)
  (st.linbo, st.partitions, st.osEntries)

/-- One loaded boot-config record. -/
structure StartConfData where
  id : Str
  raw : Str
  hash : Str
  linbo : LinboData
  partitions : List PartitionData
  osEntries : List OsData
  grubPolicy : GrubPolicyData
  updatedAt : Int
  deriving Repr, DecidableEq

/-- UTF-8 encoding of one character (Python `str.encode("utf-8")`). -/
def utf8EncodeChar (c : Char) : List Nat :=
  let n := c.toNat
  if n < 128 then [n]
  else if n < 2048 then [192 + n / 64, 128 + n % 64]
  else if n < 65536 then
    [224 + n / 4096, 128 + n / 64 % 64, 128 + n % 64]
  else
    [240 + n / 262144, 128 + n / 4096 % 64, 128 + n / 64 % 64, 128 + n % 64]

/-- Python `raw.encode("utf-8")` as a byte list. -/
def pyUtf8Encode (s : Str) : List Nat := (s.map utf8EncodeChar).flatten

/-- The source's `StartConfAdapter._parse_file` after a successful
`read_text`: store the decoded text verbatim, hash its UTF-8 encoding with
the parameter `shaHex` (modelling `hashlib.sha256(...).hexdigest()`),
parse, and derive the grub policy from the LINBO header. -/
def parseFile (shaHex : List Nat → Str) (raw : Str) (configId : Str)
    (mtime : Int) : StartConfData :=
  let contentHash := shaHex (pyUtf8Encode raw)
  let (linbo, partitions, osEntries) := parseStartconf raw
  { id := configId, raw := raw, hash := contentHash, linbo := linbo,
    partitions := partitions, osEntries := osEntries,
    grubPolicy :=
      { timeout := linbo.bootTimeout, defaultEntry := 0, hiddenMenu := false },
    updatedAt := mtime }

end StartConf

/-! ## Provisioning worker (`dc-worker/macct-worker.py`,
`ProvisionProcessor`) -/

namespace Worker

/-- The decoded `options` of one provisioning job.  Absent or `None`
string fields are modelled as the empty string (they are only used through
Python truthiness), `oldHostname` keeps its `None` case. -/
structure Job where
  action : Str
  hostname : Str
  oldHostname : Option Str
  configName : Str
  mac : Str
  ip : Str
  csvCol0 : Str
  dryRun : Bool
  deriving Repr, DecidableEq

/-- Python `set.add` on a membership-only set, kept as a duplicate-free
list in insertion order. -/
def setAdd (x : Str) (s : List Str) : List Str :=
  if x ∈ s then s else s ++ [x]

/-- The source's `_line_matches_host`: a non-comment CSV line whose second
column (stripped, lower-cased) equals the hostname (lower-cased). -/
def lineMatchesHost (line hostname : Str) : Bool :=
  let s := pyStrip line
  if s = [] then false
  else if startsWithChar '#' s then false
  else
    let parts := pySplit ';' s
    2 ≤ parts.length && pyLower (pyStrip (parts.getD 1 [])) = pyLower hostname

/-- The source's `_format_csv_line`: the minimal 5-column delta row, with
a missing config name falling back to `"nopxe"` and a missing IP to
`"DHCP"`. -/
def formatCsvLine (j : Job) : Str :=
  pyJoin ';'
    [j.csvCol0, j.hostname,
     (if j.configName = [] then pys "nopxe" else j.configName),
     pyUpper j.mac,
     (if j.ip = [] then pys "DHCP" else j.ip)]

/-- The source's `_apply_delta` for one job, threading the delta lines and
the batch-scoped `deleted_hosts` set. -/
def applyDelta (deltaLines deleted : List Str) (action : Str) (j : Job) :
    List Str × List Str :=
  if action = pys "delete" then
    (deltaLines.filter (fun l => !lineMatchesHost l j.hostname),
     setAdd (pyLower j.hostname) deleted)
  else
    let (deltaLines, deleted) :=
      match j.oldHostname with
      | some oh =>
        if action = pys "update" ∧ oh ≠ [] ∧ pyLower oh ≠ pyLower j.hostname then
          (deltaLines.filter (fun l => !lineMatchesHost l oh),
           setAdd (pyLower oh) deleted)
        else (deltaLines, deleted)
      | none => (deltaLines, deleted)
    let csv := formatCsvLine j ++ ['\n']
    if deltaLines.any (fun l => lineMatchesHost l j.hostname) then
      (deltaLines.map (fun l => if lineMatchesHost l j.hostname then csv else l),
       deleted)
    else (deltaLines ++ [csv], deleted)

/-- Step 6 of `_process_batch`: apply every job's delta in order, starting
from the freshly cleared `deleted_hosts` set. -/
def applyJobs (jobs : List Job) (delta0 deleted0 : List Str) :
    List Str × List Str :=
  jobs.foldl (fun p j => applyDelta p.1 p.2 j.action j) (delta0, deleted0)

/-- The `delta_map` built at the top of `_merge`: hostname (stripped,
lower-cased second column) to the full field list, later rows winning. -/
def deltaMapOf (deltaLines : List Str) : List (Str × List Str) :=
  deltaLines.foldl
    (fun m line =>
      let s := pyStrip line
      if s = [] then m
      else if startsWithChar '#' s then m
      else
        let parts := pySplit ';' s
        if 2 ≤ parts.length then
          dictUpsert (pyLower (pyStrip (parts.getD 1 []))) parts m
        else m)
    []

/-- The `master_cols` computation of `_merge`: the maximum column count of
the master's data rows, at least 5. -/
def masterColsOf (masterLines : List Str) : Nat :=
  masterLines.foldl
    (fun acc line =>
      let s := pyStrip line
      if s ≠ [] ∧ ¬startsWithChar '#' s then max acc (pySplit ';' s).length
      else acc)
    5

/-- The patch loop of `_merge` in closed form: for
`i in range(min(5, len(delta_parts)))` the loop overwrites `patched[i]`
while `i < len(patched)` and appends past the end, which replaces the
first `min 5 (length dp)` entries of `parts` by those of `dp` (growing
`parts` as needed) and keeps the rest of `parts`. -/
def patchParts (parts dp : List Str) : List Str :=
  let k := min 5 dp.length
  dp.take k ++ parts.drop k

/-- The master walk of `_merge`, threading the `seen` set; returns the
merged master portion and the final `seen` set. -/
def mergeWalk (dmap : List (Str × List Str)) (deleted : List Str) :
    List Str → List Str → List Str × List Str
  | [], seen => ([], seen)
  | line :: rest, seen =>
    let s := pyStrip line
    if s = [] ∨ startsWithChar '#' s then
      let (ms, sf) := mergeWalk dmap deleted rest seen
      (line :: ms, sf)
    else
      let parts := pySplit ';' s
      if parts.length < 2 then
        let (ms, sf) := mergeWalk dmap deleted rest seen
        (line :: ms, sf)
      else
        let h := pyLower (pyStrip (parts.getD 1 []))
        let seen := setAdd h seen
        if h ∈ deleted then mergeWalk dmap deleted rest seen
        else
          match dictGet h dmap with
          | some dp =>
            let (ms, sf) := mergeWalk dmap deleted rest seen
            ((pyJoin ';' (patchParts parts dp) ++ ['\n']) :: ms, sf)
          | none =>
            let (ms, sf) := mergeWalk dmap deleted rest seen
            (line :: ms, sf)

/-- The append phase of `_merge`: delta rows whose hostname was not seen
in master and is not deleted, padded to the master column count. -/
def mergeAppendRows (dmap : List (Str × List Str)) (deleted seen : List Str)
    (masterCols : Nat) : List Str :=
  dmap.filterMap
    (fun p =>
      if p.1 ∉ seen ∧ p.1 ∉ deleted then
        some (pyJoin ';' (p.2 ++ List.replicate (masterCols - p.2.length) []) ++ ['\n'])
      else none)

/-- The source's `_merge`. -/
def merge (masterLines deltaLines deleted : List Str) : List Str :=
  let dmap := deltaMapOf deltaLines
  let cols := masterColsOf masterLines
  let (ms, seen) := mergeWalk dmap deleted masterLines []
  ms ++ mergeAppendRows dmap deleted seen cols

/-- The line loop of `_check_conflicts` for a non-delete job, given the
job's lower-cased hostname, upper-cased MAC and raw IP. -/
def checkConflictsLoop (hostname mac ip : Str) : List Str → Option Str
  | [] => none
  | line :: rest =>
    let s := pyStrip line
    if s = [] ∨ startsWithChar '#' s then checkConflictsLoop hostname mac ip rest
    else
      let parts := pySplit ';' s
      if parts.length < 5 then checkConflictsLoop hostname mac ip rest
      else
        let lh := pyLower (pyStrip (parts.getD 1 []))
        let lm := pyUpper (pyStrip (parts.getD 3 []))
        let lip := pyStrip (parts.getD 4 [])
        if lh = hostname then checkConflictsLoop hostname mac ip rest
        else if mac ≠ [] ∧ lm = mac then
          some (pys "Duplicate MAC " ++ mac ++ pys " with host " ++
                pyStrip (parts.getD 1 []))
        else if ip ≠ [] ∧ ip ≠ pys "DHCP" ∧ lip = ip ∧ lip ≠ pys "DHCP" then
          some (pys "Duplicate IP " ++ ip ++ pys " with host " ++
                pyStrip (parts.getD 1 []))
        else checkConflictsLoop hostname mac ip rest

/-- The source's `_check_conflicts`: `None` for a delete job, otherwise
the first duplicate-MAC or duplicate-IP error against a row of a
different hostname. -/
def checkConflicts (action : Str) (j : Job) (mergedLines : List Str) :
    Option Str :=
  if action = pys "delete" then none
  else checkConflictsLoop (pyLower j.hostname) (pyUpper j.mac) j.ip mergedLines

/-- Steps 5-11 of `_process_batch` (the committed, non-dry-run data path):
apply every job's delta, merge with master, drop jobs that fail the
conflict check, and — when survivors remain and the first survivor is not
a dry run — commit the merged view as the new master.  `none` means no
master write happened.  (The write itself normalizes a missing trailing
newline per line; merged rows produced by patch or append already carry
one.) -/
def commitBatch (masterLines delta0 : List Str) (jobs : List Job) :
    Option (List Str) :=
  let (delta, deleted) := applyJobs jobs delta0 []
  let merged := merge masterLines delta deleted
  let survivors := jobs.filter (fun j => (checkConflicts j.action j merged).isNone)
  match survivors with
  | [] => none
  | j :: _ => if j.dryRun then none else some merged

/-- The fields of a conflict-relevant data row (at least five columns):
used to state which rows of the merged view carry which MAC. -/
def rowFieldsOf (line : Str) : Option (List Str) :=
  let s := pyStrip line
  if s = [] ∨ startsWithChar '#' s then none
  else
    let parts := pySplit ';' s
    if parts.length < 5 then none else some parts

/-- Lower-cased hostname of a conflict-relevant data row. -/
def rowHost (line : Str) : Option Str :=
  (rowFieldsOf line).map (fun ps => pyLower (pyStrip (ps.getD 1 [])))

/-- Upper-cased MAC of a conflict-relevant data row. -/
def rowMac (line : Str) : Option Str :=
  (rowFieldsOf line).map (fun ps => pyUpper (pyStrip (ps.getD 3 [])))

/-- Specification form of one step of the master walk, following the
spec's case analysis: blank, comment and short rows are kept verbatim, a
deleted hostname's row is omitted, a delta-matched row takes columns 0-4
from the delta row and keeps the rest, and every other row is kept
verbatim. -/
def mergeRowSpec (dmap : List (Str × List Str)) (deleted : List Str)
    (line : Str) : Option Str :=
  let s := pyStrip line
  if s = [] ∨ startsWithChar '#' s then some line
  else
    let parts := pySplit ';' s
    if parts.length < 2 then some line
    else
      let h := pyLower (pyStrip (parts.getD 1 []))
      if h ∈ deleted then none
      else
        match dictGet h dmap with
        | some dp => some (pyJoin ';' (patchParts parts dp) ++ ['\n'])
        | none => some line

/-- The hostnames of the master's data rows (what the walk's `seen` set
holds at the end). -/
def seenHostsOf (masterLines : List Str) : List Str :=
  masterLines.filterMap
    (fun line =>
      let s := pyStrip line
      if s = [] ∨ startsWithChar '#' s then none
      else
        let parts := pySplit ';' s
        if parts.length < 2 then none
        else some (pyLower (pyStrip (parts.getD 1 []))))

end Worker

/-! ## Helper lemmas -/

theorem toNat_ofNat_valid (n : Nat) (h : n.isValidChar) :
    (Char.ofNat n).toNat = n := by
  rw [Char.ofNat, dif_pos h]
  rfl

theorem upChar_not_lower (c : Char) :
    ¬ (97 ≤ (upChar c).toNat ∧ (upChar c).toNat ≤ 122) := by
  unfold upChar
  by_cases h : 97 ≤ c.toNat ∧ c.toNat ≤ 122
  · rw [if_pos h]
    have hv : (c.toNat - 32).isValidChar := by
      constructor
      omega
    rw [toNat_ofNat_valid _ hv]
    omega
  · rw [if_neg h]
    exact h

theorem upChar_idem (c : Char) : upChar (upChar c) = upChar c := by
  conv_lhs => rw [upChar]
  rw [if_neg (upChar_not_lower c)]

theorem dashColon_upChar_idem (c : Char) :
    dashColonChar (upChar (dashColonChar (upChar c))) = dashColonChar (upChar c) := by
  by_cases h : upChar c = '-'
  · rw [h]
    rfl
  · have hd : dashColonChar (upChar c) = upChar c := by
      rw [dashColonChar, if_neg h]
    rw [hd, upChar_idem, hd]

theorem dictGet_upsert_self (k : Str) (v : β) (m : List (Str × β)) :
    dictGet k (dictUpsert k v m) = some v := by
  induction m with
  | nil => simp [dictUpsert, dictGet]
  | cons p rest ih =>
    by_cases h : p.1 = k
    · simp [dictUpsert, dictGet, h]
    · simp [dictUpsert, dictGet, h, ih]

theorem dictGet_upsert_other (k k' : Str) (v : β) (m : List (Str × β))
    (h : k' ≠ k) : dictGet k' (dictUpsert k v m) = dictGet k' m := by
  induction m with
  | nil => simp [dictUpsert, dictGet, Ne.symm h]
  | cons p rest ih =>
    by_cases hp : p.1 = k
    · subst hp
      simp only [dictUpsert, if_pos rfl]
      show (if p.1 = k' then some v else dictGet k' rest) =
        if p.1 = k' then some p.2 else dictGet k' rest
      rw [if_neg (fun hh => h hh.symm), if_neg (fun hh => h hh.symm)]
    · simp only [dictUpsert, if_neg hp]
      by_cases hp' : p.1 = k'
      · simp [dictGet, hp']
      · simp [dictGet, hp', ih]

theorem mem_dictUpsert (p : Str × β) (k : Str) (v : β) (m : List (Str × β))
    (h : p ∈ dictUpsert k v m) : p = (k, v) ∨ p ∈ m := by
  induction m with
  | nil =>
    simp [dictUpsert] at h
    exact Or.inl h
  | cons q rest ih =>
    by_cases hq : q.1 = k
    · simp only [dictUpsert, if_pos hq, List.mem_cons] at h
      rcases h with h | h
      · exact Or.inl h
      · exact Or.inr (List.mem_cons_of_mem _ h)
    · simp only [dictUpsert, if_neg hq, List.mem_cons] at h
      rcases h with h | h
      · exact Or.inr (h ▸ List.mem_cons_self _ _)
      · rcases ih h with h' | h'
        · exact Or.inl h'
        · exact Or.inr (List.mem_cons_of_mem _ h')

theorem dictGet_isSome_upsert (k k' : Str) (v : β) (m : List (Str × β)) :
    (dictGet k' (dictUpsert k v m)).isSome = true ↔
      k' = k ∨ (dictGet k' m).isSome = true := by
  by_cases h : k' = k
  · subst h
    simp [dictGet_upsert_self]
  · rw [dictGet_upsert_other _ _ _ _ h]
    simp [h]

/-! ## Claim C7: devices `load()` error atomicity -/

/-- Claim C7: for every call to the devices adapter's `load()` where the
inventory file is missing or an I/O error occurs during reading, `load()`
returns false and the adapter's state (host map and `last_modified`) is
exactly what it was before the call; on success the fully built new map
and the new mtime replace the old state. -/
theorem devices_load_error_atomic (r : Devices.ReadOutcome)
    (st : Devices.DevState) :
    ((Devices.load r st).1 = false → (Devices.load r st).2 = st) ∧
      (∀ text mtime, r = .ok text mtime →
        Devices.load r st =
          (true, { hosts := Devices.buildHosts text mtime,
                   lastModified := some mtime })) := by
  constructor
  · intro h
    cases r with
    | ok text mtime => simp [Devices.load] at h
    | fileNotFound => rfl
    | ioError => rfl
  · intro text mtime h
    subst h
    rfl

/-- Witness for C7 at a concrete failing read and a concrete success. -/
theorem devices_load_error_atomic_witness :
    ((Devices.load .fileNotFound ⟨[], none⟩).1 = false →
      (Devices.load .fileNotFound ⟨[], none⟩).2 = ⟨[], none⟩) ∧
      (∀ text mtime, Devices.ReadOutcome.fileNotFound = .ok text mtime →
        Devices.load .fileNotFound ⟨[], none⟩ =
          (true, { hosts := Devices.buildHosts text mtime,
                   lastModified := some mtime })) :=
  devices_load_error_atomic .fileNotFound ⟨[], none⟩

/-! ## Claim C10: `get_host` lookup normalization -/

/-- Claim C10: for every query string `m`, `get_host(m)` equals `get_host`
applied to the uppercase `':'`-separated form of `m`; lookups are
insensitive to letter case and to `'-'` versus `':'` separators, so any
host stored under a canonical key is returned for every query that
normalizes to it. -/
theorem devices_getHost_norm (st : Devices.DevState) (m : Str) :
    Devices.getHost st m =
      Devices.getHost st (pyDashToColon (pyUpper m)) := by
  show dictGet (pyDashToColon (pyUpper m)) st.hosts =
    dictGet (pyDashToColon (pyUpper (pyDashToColon (pyUpper m)))) st.hosts
  have hkey : pyDashToColon (pyUpper (pyDashToColon (pyUpper m))) =
      pyDashToColon (pyUpper m) := by
    simp only [pyDashToColon, pyUpper, List.map_map, Function.comp]
    exact List.map_congr_left (fun c _ => dashColon_upChar_idem c)
  rw [hkey]

/-! ## Claim C4: boot-config raw preservation and hash -/

/-- Claim C4: for every loaded boot-config record, the stored hash equals
the SHA-256 hex digest (parameter `shaHex`) of the UTF-8 encoding of the
stored raw content, and the stored raw content is the decoded file text
verbatim — so its UTF-8 re-encoding is byte-identical to the file's bytes
at load time (a strictly decoded UTF-8 file's bytes are exactly
`StartConf.pyUtf8Encode` of its decoded text). -/
theorem startconf_raw_hash (shaHex : List Nat → Str) (raw : Str)
    (configId : Str) (mtime : Int) :
    (StartConf.parseFile shaHex raw configId mtime).hash =
        shaHex (StartConf.pyUtf8Encode (StartConf.parseFile shaHex raw configId mtime).raw) ∧
      (StartConf.parseFile shaHex raw configId mtime).raw = raw ∧
      (∀ fileBytes, fileBytes = StartConf.pyUtf8Encode raw →
        StartConf.pyUtf8Encode (StartConf.parseFile shaHex raw configId mtime).raw =
          fileBytes) := by
  refine ⟨rfl, rfl, ?_⟩
  intro fileBytes h
  rw [h]
  rfl

/-- Witness for C4 at a concrete hash function and file text. -/
theorem startconf_raw_hash_witness :
    ((StartConf.parseFile (fun _ => pys "h") (pys "[LINBO]\nServer = s\n")
        (pys "g1") 3).hash =
      (fun _ => pys "h")
        (StartConf.pyUtf8Encode
          (StartConf.parseFile (fun _ => pys "h") (pys "[LINBO]\nServer = s\n")
            (pys "g1") 3).raw) ∧
      (StartConf.parseFile (fun _ => pys "h") (pys "[LINBO]\nServer = s\n")
          (pys "g1") 3).raw = pys "[LINBO]\nServer = s\n" ∧
      (∀ fileBytes, fileBytes = StartConf.pyUtf8Encode (pys "[LINBO]\nServer = s\n") →
        StartConf.pyUtf8Encode
            (StartConf.parseFile (fun _ => pys "h")
              (pys "[LINBO]\nServer = s\n") (pys "g1") 3).raw =
          fileBytes)) :=
  startconf_raw_hash (fun _ => pys "h") (pys "[LINBO]\nServer = s\n")
    (pys "g1") 3

/-! ## Claim C8: conditional DHCP export -/

/-- Claim C8: for every DHCP export request, if `If-None-Match` equals the
current entity tag (the quoted first 12 hex characters of the MD5 digest
of the body, `Dhcp.etagOf`), or `If-Modified-Since` parses to a time at
least the adapter's `last_modified`, the response is a 304 with an empty
body and the same `ETag` / `Last-Modified` headers as a full response;
otherwise the full body is returned with those headers. -/
theorem dhcp_conditional_export (md5hex : Str → Str) (fmtDate : Int → Str)
    (parseDate : Str → Option Int) (inm ims : Option Str) (content : Str)
    (lastModified : Option Int) :
    (inm = some (Dhcp.etagOf md5hex content) →
      Dhcp.conditionalResponse md5hex fmtDate parseDate inm ims content
          lastModified =
        { status := 304, body := [],
          headers := Dhcp.headersOf md5hex fmtDate content lastModified }) ∧
      (∀ lm s t, lastModified = some lm → ims = some s → s ≠ [] →
        parseDate s = some t → lm ≤ t →
        Dhcp.conditionalResponse md5hex fmtDate parseDate inm ims content
            lastModified =
          { status := 304, body := [],
            headers := Dhcp.headersOf md5hex fmtDate content lastModified }) ∧
      (Dhcp.inmMatches md5hex content inm = false →
        Dhcp.imsMatches parseDate lastModified ims = false →
        Dhcp.conditionalResponse md5hex fmtDate parseDate inm ims content
            lastModified =
          { status := 200, body := content,
            headers := Dhcp.headersOf md5hex fmtDate content lastModified }) ∧
      (Dhcp.conditionalResponse md5hex fmtDate parseDate inm ims content
          lastModified).headers =
        Dhcp.headersOf md5hex fmtDate content lastModified := by
  refine ⟨?_, ?_, ?_, ?_⟩
  · intro h
    have hm : Dhcp.inmMatches md5hex content inm = true := by
      subst h
      simp [Dhcp.inmMatches, Dhcp.etagOf]
    unfold Dhcp.conditionalResponse
    rw [hm]
    rfl
  · intro lm s t hlm hs hne hp hle
    subst hlm
    subst hs
    have him : Dhcp.imsMatches parseDate (some lm) (some s) = true := by
      simp [Dhcp.imsMatches, hp, hle, List.isEmpty_iff, hne]
    unfold Dhcp.conditionalResponse
    rw [him]
    by_cases hm : Dhcp.inmMatches md5hex content inm <;> simp [hm]
  · intro h1 h2
    unfold Dhcp.conditionalResponse
    rw [h1, h2]
    rfl
  · unfold Dhcp.conditionalResponse
    by_cases hm : Dhcp.inmMatches md5hex content inm <;>
      by_cases hi : Dhcp.imsMatches parseDate lastModified ims <;>
      simp [hm, hi]

/-- Witness for C8: a concrete matching `If-None-Match`, evaluated. -/
theorem dhcp_conditional_export_witness :
    (some (Dhcp.etagOf (fun _ => pys "0123456789abcdef") (pys "body")) =
        some (Dhcp.etagOf (fun _ => pys "0123456789abcdef") (pys "body"))) ∧
      Dhcp.conditionalResponse (fun _ => pys "0123456789abcdef")
          (fun _ => pys "date") (fun _ => none)
          (some (Dhcp.etagOf (fun _ => pys "0123456789abcdef") (pys "body")))
          none (pys "body") (some 5) =
        { status := 304, body := [],
          headers := Dhcp.headersOf (fun _ => pys "0123456789abcdef")
            (fun _ => pys "date") (pys "body") (some 5) } :=
  ⟨rfl,
    (dhcp_conditional_export (fun _ => pys "0123456789abcdef")
      (fun _ => pys "date") (fun _ => none)
      (some (Dhcp.etagOf (fun _ => pys "0123456789abcdef") (pys "body")))
      none (pys "body") (some 5)).1 rfl⟩

/-! ## Claim C6: rate limiter (corrected) -/

/-- Counterexample to claim C6 as stated: with a limit of 1 and an evicted
window whose oldest entry makes `60 - (now - oldest) = 8.5`, the source's
`Retry-After` is `max(1, int(8.5)) = 8` (truncation), while the claim's
`ceil` would give 9. -/
theorem rate_limit_retry_after_counterexample :
    RateLimit.dispatch 1 100 [(97 : ℚ)/2] =
        .limited 429 8 [(97 : ℚ)/2] ∧
      ⌈(60 : ℚ) - (100 - (97 : ℚ)/2)⌉ = 9 ∧ (8 : Int) ≠ 9 := by
  refine ⟨?_, ?_, by decide⟩
  · have he : RateLimit.evict 100 [(97 : ℚ)/2] = [(97 : ℚ)/2] := by
      simp only [RateLimit.evict, List.filter]
      norm_num
    have hv : (60 : ℚ) - (100 - ([(97 : ℚ)/2].headD 0)) = 17/2 := by
      norm_num [List.headD]
    have hfloor : RateLimit.pyIntTrunc ((17 : ℚ)/2) = 8 := by
      rw [RateLimit.pyIntTrunc, if_pos (by norm_num)]
      rw [Int.floor_eq_iff]
      constructor <;> norm_num
    show (let w := RateLimit.evict 100 [(97 : ℚ)/2];
      if 1 ≤ w.length then
        RateLimit.Outcome.limited 429
          (max 1 (RateLimit.pyIntTrunc (60 - (100 - w.headD 0)))) w
      else RateLimit.Outcome.proceed (w ++ [100])) =
      RateLimit.Outcome.limited 429 8 [(97 : ℚ)/2]
    rw [he]
    simp only [List.length_cons, List.length_nil]
    rw [if_pos (by norm_num)]
    rw [hv, hfloor]
    norm_num
  · rw [show (60 : ℚ) - (100 - (97 : ℚ)/2) = 17/2 by norm_num]
    rw [Int.ceil_eq_iff]
    constructor <;> norm_num

/-- Claim C6 amended: for every rate-limited request (evicted window
already at the per-minute limit) the middleware responds 429 with
`Retry-After = max(1, int(60 - (now - oldest)))` — truncation toward
zero, not `ceil` — and for every request under the limit the current
timestamp is appended to the evicted window and the request proceeds;
eviction keeps exactly the entries younger than `now - 60`. -/
theorem rate_limit_dispatch (rpm : Nat) (now : ℚ) (window : List ℚ) :
    (rpm ≤ (RateLimit.evict now window).length →
      RateLimit.dispatch rpm now window =
        .limited 429
          (max 1 (RateLimit.pyIntTrunc
            (60 - (now - (RateLimit.evict now window).headD 0))))
          (RateLimit.evict now window)) ∧
      ((RateLimit.evict now window).length < rpm →
        RateLimit.dispatch rpm now window =
          .proceed (RateLimit.evict now window ++ [now])) ∧
      RateLimit.evict now window =
        window.filter (fun t => decide (now - 60 < t)) := by
  refine ⟨?_, ?_, rfl⟩
  · intro h
    unfold RateLimit.dispatch
    rw [if_pos h]
  · intro h
    unfold RateLimit.dispatch
    rw [if_neg (by omega)]

/-- Witness for C6 (amended) at a concrete limited request and a concrete
allowed request. -/
theorem rate_limit_dispatch_witness :
    (1 ≤ (RateLimit.evict 70 [(20 : ℚ)]).length ∧
      RateLimit.dispatch 1 70 [(20 : ℚ)] =
        .limited 429
          (max 1 (RateLimit.pyIntTrunc
            (60 - (70 - (RateLimit.evict 70 [(20 : ℚ)]).headD 0))))
          (RateLimit.evict 70 [(20 : ℚ)])) ∧
      ((RateLimit.evict 70 [(20 : ℚ)]).length < 2 ∧
        RateLimit.dispatch 2 70 [(20 : ℚ)] =
          .proceed (RateLimit.evict 70 [(20 : ℚ)] ++ [70])) := by
  have hl : (RateLimit.evict 70 [(20 : ℚ)]).length = 1 := by
    simp only [RateLimit.evict, List.filter]
    norm_num
  exact ⟨⟨by omega, (rate_limit_dispatch 1 70 [(20 : ℚ)]).1 (by omega)⟩,
    ⟨by omega, (rate_limit_dispatch 2 70 [(20 : ℚ)]).2.1 (by omega)⟩⟩

/-! ## Claim C5: changes endpoint cursor handling (corrected) -/

/-- Counterexample to claim C5 as stated: a malformed `since` cursor is
rejected by the router with a 400 `VALIDATION_ERROR` before the service's
full-snapshot fallback can run, rather than receiving a full snapshot. -/
theorem changes_endpoint_malformed_counterexample :
    Delta.getChangesEndpoint [] ⟨[], [], []⟩ 9 3 (pys "not-a-cursor") =
      .error (400, pys "VALIDATION_ERROR") := rfl

/-- Claim C5 amended: a request with a non-empty `since` not matching
`^\d+:\d+$` receives a 400 `VALIDATION_ERROR` from the endpoint; an empty
`since`, and a regex-well-formed cursor whose `(ts, seq)` pair no longer
exists in the changelog, receive a full snapshot. -/
theorem changes_endpoint_behavior (log : List Delta.Row)
    (snap : Delta.EntitySnapshot) (now seqCtr : Int) (since : Str) :
    (since ≠ [] → cursorRe since = false →
      Delta.getChangesEndpoint log snap now seqCtr since =
        .error (400, pys "VALIDATION_ERROR")) ∧
      (since = [] →
        Delta.getChangesEndpoint log snap now seqCtr since =
          .ok (Delta.fullSnapshot log snap now seqCtr).1) ∧
      (∀ ts sq, cursorRe since = true →
        Delta.parseCursor since = some (ts, sq) →
        Delta.isValidCursor log ts sq = false →
        Delta.getChangesEndpoint log snap now seqCtr since =
          .ok (Delta.fullSnapshot log snap now seqCtr).1) := by
  refine ⟨?_, ?_, ?_⟩
  · intro h1 h2
    unfold Delta.getChangesEndpoint
    rw [if_pos ⟨h1, h2⟩]
  · intro h
    subst h
    rfl
  · intro ts sq hre hp hv
    have hemp : since ≠ [] := by
      intro h
      rw [h] at hre
      exact absurd hre (by decide)
    unfold Delta.getChangesEndpoint
    rw [if_neg (fun hc => by rw [hre] at hc; exact absurd hc.2 (by simp))]
    unfold Delta.getChangesService
    rw [if_neg hemp, hp]
    simp [hv]

/-- Witness for C5 (amended): a concrete malformed cursor and a concrete
stale well-formed cursor. -/
theorem changes_endpoint_behavior_witness :
    (pys "abc" ≠ [] ∧ cursorRe (pys "abc") = false ∧
      Delta.getChangesEndpoint [⟨1, 1, pys "host", pys "A", pys "upsert"⟩]
          ⟨[], [], []⟩ 9 3 (pys "abc") =
        .error (400, pys "VALIDATION_ERROR")) ∧
      (cursorRe (pys "9:9") = true ∧
        Delta.parseCursor (pys "9:9") = some (9, 9) ∧
        Delta.isValidCursor [⟨1, 1, pys "host", pys "A", pys "upsert"⟩] 9 9 =
          false ∧
        Delta.getChangesEndpoint [⟨1, 1, pys "host", pys "A", pys "upsert"⟩]
            ⟨[], [], []⟩ 9 3 (pys "9:9") =
          .ok (Delta.fullSnapshot [⟨1, 1, pys "host", pys "A", pys "upsert"⟩]
            ⟨[], [], []⟩ 9 3).1) :=
  ⟨⟨by decide, by decide,
    (changes_endpoint_behavior [⟨1, 1, pys "host", pys "A", pys "upsert"⟩]
      ⟨[], [], []⟩ 9 3 (pys "abc")).1 (by decide) (by decide)⟩,
   ⟨by decide, by decide, by decide,
    (changes_endpoint_behavior [⟨1, 1, pys "host", pys "A", pys "upsert"⟩]
      ⟨[], [], []⟩ 9 3 (pys "9:9")).2.2 9 9 (by decide) (by decide)
      (by decide)⟩⟩

/-! ## Claim C2: delta feed deletion/change disjointness (corrected) -/

/-- Effect of one `accumStep` on `deletedHosts`. -/
theorem accumStep_deletedHosts (a : Delta.Accum) (r : Delta.Row) :
    (Delta.accumStep a r).deletedHosts =
      if r.action = pys "delete" ∧ r.etype = pys "host"
      then a.deletedHosts ++ [r.eid] else a.deletedHosts := by
  have hne : pys "startconf" ≠ pys "host" := by decide
  unfold Delta.accumStep
  split_ifs <;> simp_all

/-- Effect of one `accumStep` on `hostsChanged`. -/
theorem accumStep_hostsChanged (a : Delta.Accum) (r : Delta.Row) :
    (Delta.accumStep a r).hostsChanged =
      if r.action ≠ pys "delete" ∧ r.etype = pys "host"
      then a.hostsChanged ++ [r.eid] else a.hostsChanged := by
  have hne : pys "startconf" ≠ pys "host" := by decide
  unfold Delta.accumStep
  split_ifs <;> simp_all

/-- Effect of one `accumStep` on `deletedStartConfs`. -/
theorem accumStep_deletedStartConfs (a : Delta.Accum) (r : Delta.Row) :
    (Delta.accumStep a r).deletedStartConfs =
      if r.action = pys "delete" ∧ r.etype = pys "startconf"
      then a.deletedStartConfs ++ [r.eid] else a.deletedStartConfs := by
  have hne : pys "startconf" ≠ pys "host" := by decide
  unfold Delta.accumStep
  split_ifs <;> simp_all

/-- Effect of one `accumStep` on `startConfsChanged`. -/
theorem accumStep_startConfsChanged (a : Delta.Accum) (r : Delta.Row) :
    (Delta.accumStep a r).startConfsChanged =
      if r.action ≠ pys "delete" ∧ r.etype = pys "startconf"
      then a.startConfsChanged ++ [r.eid] else a.startConfsChanged := by
  have hne : pys "startconf" ≠ pys "host" := by decide
  unfold Delta.accumStep
  split_ifs <;> simp_all

/-- Characterization of the per-row loop of `get_changes`: each output
list collects, in order, the entity ids of the rows its branch selects. -/
theorem foldl_accumStep_lists (rows : List Delta.Row) (a : Delta.Accum) :
    (rows.foldl Delta.accumStep a).deletedHosts =
        a.deletedHosts ++ rows.filterMap
          (fun r => if r.action = pys "delete" ∧ r.etype = pys "host"
            then some r.eid else none) ∧
      (rows.foldl Delta.accumStep a).hostsChanged =
        a.hostsChanged ++ rows.filterMap
          (fun r => if r.action ≠ pys "delete" ∧ r.etype = pys "host"
            then some r.eid else none) ∧
      (rows.foldl Delta.accumStep a).deletedStartConfs =
        a.deletedStartConfs ++ rows.filterMap
          (fun r => if r.action = pys "delete" ∧ r.etype = pys "startconf"
            then some r.eid else none) ∧
      (rows.foldl Delta.accumStep a).startConfsChanged =
        a.startConfsChanged ++ rows.filterMap
          (fun r => if r.action ≠ pys "delete" ∧ r.etype = pys "startconf"
            then some r.eid else none) := by
  induction rows generalizing a with
  | nil => simp
  | cons r rest ih =>
    obtain ⟨ih1, ih2, ih3, ih4⟩ := ih (Delta.accumStep a r)
    refine ⟨?_, ?_, ?_, ?_⟩
    · simp only [List.foldl_cons, List.filterMap_cons, ih1,
        accumStep_deletedHosts]
      by_cases h : r.action = pys "delete" ∧ r.etype = pys "host" <;>
        simp [h]
    · simp only [List.foldl_cons, List.filterMap_cons, ih2,
        accumStep_hostsChanged]
      by_cases h : r.action ≠ pys "delete" ∧ r.etype = pys "host" <;>
        simp [h]
    · simp only [List.foldl_cons, List.filterMap_cons, ih3,
        accumStep_deletedStartConfs]
      by_cases h : r.action = pys "delete" ∧ r.etype = pys "startconf" <;>
        simp [h]
    · simp only [List.foldl_cons, List.filterMap_cons, ih4,
        accumStep_startConfsChanged]
      by_cases h : r.action ≠ pys "delete" ∧ r.etype = pys "startconf" <;>
        simp [h]

/-- For a non-empty, parsed, still-valid cursor, `get_changes` returns the
accumulated incremental response. -/
theorem getChangesService_incremental (log : List Delta.Row)
    (snap : Delta.EntitySnapshot) (now seqCtr : Int) (since : Str)
    (ts sq : Int) (hemp : since ≠ [])
    (hp : Delta.parseCursor since = some (ts, sq))
    (hv : Delta.isValidCursor log ts sq = true) :
    (Delta.getChangesService log snap now seqCtr since).1 =
      { nextCursor := (Delta.latestCursor log now seqCtr).1,
        hostsChanged :=
          ((Delta.sortRows (Delta.afterRows log ts sq)).foldl
            Delta.accumStep Delta.accumInit).hostsChanged,
        startConfsChanged :=
          ((Delta.sortRows (Delta.afterRows log ts sq)).foldl
            Delta.accumStep Delta.accumInit).startConfsChanged,
        configsChanged :=
          ((Delta.sortRows (Delta.afterRows log ts sq)).foldl
            Delta.accumStep Delta.accumInit).configsChanged,
        dhcpChanged :=
          ((Delta.sortRows (Delta.afterRows log ts sq)).foldl
            Delta.accumStep Delta.accumInit).dhcpChanged,
        deletedHosts :=
          ((Delta.sortRows (Delta.afterRows log ts sq)).foldl
            Delta.accumStep Delta.accumInit).deletedHosts,
        deletedStartConfs :=
          ((Delta.sortRows (Delta.afterRows log ts sq)).foldl
            Delta.accumStep Delta.accumInit).deletedStartConfs } := by
  unfold Delta.getChangesService
  rw [if_neg hemp, hp]
  simp only [hv, Bool.not_true, Bool.false_eq_true, if_false]


unseal List.merge List.mergeSort in
/-- Counterexample to claim C2 as stated: with a valid cursor `1:1` and a
changelog holding, after that cursor, both an upsert and a delete for host
`X`, the response lists `X` both in `hostsChanged` and in `deletedHosts`,
so the two lists are not disjoint. -/
theorem delta_changes_disjoint_counterexample :
    (Delta.getChangesService
        [⟨1, 1, pys "host", pys "A", pys "upsert"⟩,
         ⟨2, 2, pys "host", pys "X", pys "upsert"⟩,
         ⟨3, 3, pys "host", pys "X", pys "delete"⟩]
        ⟨[], [], []⟩ 99 3 (pys "1:1")).1.hostsChanged = [pys "X"] ∧
      (Delta.getChangesService
        [⟨1, 1, pys "host", pys "A", pys "upsert"⟩,
         ⟨2, 2, pys "host", pys "X", pys "upsert"⟩,
         ⟨3, 3, pys "host", pys "X", pys "delete"⟩]
        ⟨[], [], []⟩ 99 3 (pys "1:1")).1.deletedHosts = [pys "X"] := by
  constructor <;> decide

/-- Claim C2 amended: for every well-formed, still-valid cursor,
`get_changes` returns `deletedHosts` disjoint from `hostsChanged` and
`deletedStartConfs` disjoint from `startConfsChanged` PROVIDED no entity
id has, after the cursor, both a delete row and a non-delete row of the
same entity type; when the changelog after the cursor contains both an
upsert and a delete for the same entity id, that id appears in both lists
(see the counterexample). -/
theorem delta_changes_disjointness (log : List Delta.Row)
    (snap : Delta.EntitySnapshot) (now seqCtr : Int) (since : Str)
    (ts sq : Int) (hemp : since ≠ [])
    (hp : Delta.parseCursor since = some (ts, sq))
    (hv : Delta.isValidCursor log ts sq = true)
    (hone : ∀ r ∈ Delta.afterRows log ts sq, ∀ r' ∈ Delta.afterRows log ts sq,
      r.etype = r'.etype → r.eid = r'.eid →
      (r.action = pys "delete" ↔ r'.action = pys "delete")) :
    (∀ x ∈ (Delta.getChangesService log snap now seqCtr since).1.deletedHosts,
      x ∉ (Delta.getChangesService log snap now seqCtr since).1.hostsChanged) ∧
      (∀ x ∈ (Delta.getChangesService log snap now seqCtr
          since).1.deletedStartConfs,
        x ∉ (Delta.getChangesService log snap now seqCtr
          since).1.startConfsChanged) := by
  rw [getChangesService_incremental log snap now seqCtr since ts sq hemp hp hv]
  obtain ⟨h1, h2, h3, h4⟩ :=
    foldl_accumStep_lists (Delta.sortRows (Delta.afterRows log ts sq))
      Delta.accumInit
  rw [h1, h2, h3, h4]
  have hmem : ∀ r : Delta.Row,
      r ∈ Delta.sortRows (Delta.afterRows log ts sq) ↔
        r ∈ Delta.afterRows log ts sq :=
    fun r => (List.mergeSort_perm (Delta.afterRows log ts sq) _).mem_iff
  constructor
  · intro x hx hx'
    simp only [Delta.accumInit, List.nil_append, List.mem_filterMap] at hx hx'
    obtain ⟨r, hr, hrsel⟩ := hx
    obtain ⟨r', hr', hrsel'⟩ := hx'
    by_cases hcond : r.action = pys "delete" ∧ r.etype = pys "host"
    · by_cases hcond' : r'.action ≠ pys "delete" ∧ r'.etype = pys "host"
      · rw [if_pos hcond] at hrsel
        rw [if_pos hcond'] at hrsel'
        have heid : r.eid = r'.eid := by
          rw [Option.some_inj] at hrsel hrsel'
          rw [hrsel, hrsel']
        have := hone r ((hmem r).mp hr) r' ((hmem r').mp hr')
          (hcond.2.trans hcond'.2.symm) heid
        exact hcond'.1 (this.mp hcond.1)
      · rw [if_neg hcond'] at hrsel'
        cases hrsel'
    · rw [if_neg hcond] at hrsel
      cases hrsel
  · intro x hx hx'
    simp only [Delta.accumInit, List.nil_append, List.mem_filterMap] at hx hx'
    obtain ⟨r, hr, hrsel⟩ := hx
    obtain ⟨r', hr', hrsel'⟩ := hx'
    by_cases hcond : r.action = pys "delete" ∧ r.etype = pys "startconf"
    · by_cases hcond' : r'.action ≠ pys "delete" ∧ r'.etype = pys "startconf"
      · rw [if_pos hcond] at hrsel
        rw [if_pos hcond'] at hrsel'
        have heid : r.eid = r'.eid := by
          rw [Option.some_inj] at hrsel hrsel'
          rw [hrsel, hrsel']
        have := hone r ((hmem r).mp hr) r' ((hmem r').mp hr')
          (hcond.2.trans hcond'.2.symm) heid
        exact hcond'.1 (this.mp hcond.1)
      · rw [if_neg hcond'] at hrsel'
        cases hrsel'
    · rw [if_neg hcond] at hrsel
      cases hrsel

/-- Witness for C2 (amended) at a concrete changelog with one upsert and
one unrelated delete after the cursor. -/
theorem delta_changes_disjointness_witness :
    (∀ x ∈ (Delta.getChangesService
        [⟨1, 1, pys "host", pys "A", pys "upsert"⟩,
         ⟨2, 2, pys "host", pys "B", pys "upsert"⟩,
         ⟨3, 3, pys "startconf", pys "S", pys "delete"⟩]
        ⟨[], [], []⟩ 99 3 (pys "1:1")).1.deletedHosts,
      x ∉ (Delta.getChangesService
        [⟨1, 1, pys "host", pys "A", pys "upsert"⟩,
         ⟨2, 2, pys "host", pys "B", pys "upsert"⟩,
         ⟨3, 3, pys "startconf", pys "S", pys "delete"⟩]
        ⟨[], [], []⟩ 99 3 (pys "1:1")).1.hostsChanged) ∧
      (∀ x ∈ (Delta.getChangesService
          [⟨1, 1, pys "host", pys "A", pys "upsert"⟩,
           ⟨2, 2, pys "host", pys "B", pys "upsert"⟩,
           ⟨3, 3, pys "startconf", pys "S", pys "delete"⟩]
          ⟨[], [], []⟩ 99 3 (pys "1:1")).1.deletedStartConfs,
        x ∉ (Delta.getChangesService
          [⟨1, 1, pys "host", pys "A", pys "upsert"⟩,
           ⟨2, 2, pys "host", pys "B", pys "upsert"⟩,
           ⟨3, 3, pys "startconf", pys "S", pys "delete"⟩]
          ⟨[], [], []⟩ 99 3 (pys "1:1")).1.startConfsChanged) :=
  delta_changes_disjointness
    [⟨1, 1, pys "host", pys "A", pys "upsert"⟩,
     ⟨2, 2, pys "host", pys "B", pys "upsert"⟩,
     ⟨3, 3, pys "startconf", pys "S", pys "delete"⟩]
    ⟨[], [], []⟩ 99 3 (pys "1:1") 1 1 (by decide) (by decide) (by decide)
    (by decide)

/-! ## Claim C3: devices adapter row acceptance (corrected) -/

/-- The padded field list of one inventory row. -/
def Devices.rowFields (line : Str) : List Str :=
  Devices.padTo15 ((pySplit ';' (pyStrip line)).take 15)

/-- Membership in the built host map comes only from accepted lines, keyed
by the record's MAC. -/
theorem mem_buildHostsLines (lines : List Str) (mtime : Int)
    (acc : List (Str × Devices.HostData)) (p : Str × Devices.HostData)
    (hp : p ∈ lines.foldl
      (fun m l =>
        match Devices.parseLine l mtime with
        | some h => dictUpsert h.mac h m
        | none => m)
      acc) :
    p ∈ acc ∨ ∃ line ∈ lines,
      Devices.parseLine line mtime = some p.2 ∧ p.1 = p.2.mac := by
  induction lines generalizing acc with
  | nil => exact Or.inl hp
  | cons l rest ih =>
    rw [List.foldl_cons] at hp
    rcases ih _ hp with h | ⟨line, hline, hsome, hkey⟩
    · cases hpl : Devices.parseLine l mtime with
      | none =>
        rw [hpl] at h
        exact Or.inl h
      | some hd =>
        rw [hpl] at h
        rcases mem_dictUpsert p hd.mac hd acc h with h' | h'
        · refine Or.inr ⟨l, List.mem_cons_self _ _, ?_, ?_⟩
          · rw [hpl, h']
          · rw [h']
        · exact Or.inl h'
    · exact Or.inr ⟨line, List.mem_cons_of_mem _ hline, hsome, hkey⟩

/-- A key present in the accumulator stays present through the fold. -/
theorem buildHostsLines_key_mono (lines : List Str) (mtime : Int)
    (acc : List (Str × Devices.HostData)) (k : Str)
    (hk : (dictGet k acc).isSome = true) :
    (dictGet k (lines.foldl
      (fun m l =>
        match Devices.parseLine l mtime with
        | some h => dictUpsert h.mac h m
        | none => m)
      acc)).isSome = true := by
  induction lines generalizing acc with
  | nil => exact hk
  | cons l rest ih =>
    rw [List.foldl_cons]
    cases hpl : Devices.parseLine l mtime with
    | none => exact ih _ hk
    | some hd =>
      refine ih _ ?_
      rw [dictGet_isSome_upsert]
      exact Or.inr hk

/-- An accepted line anywhere in the list leaves its MAC present in the
final map. -/
theorem buildHostsLines_key_of_mem (lines : List Str) (mtime : Int)
    (acc : List (Str × Devices.HostData)) (line : Str)
    (h : Devices.HostData) (hline : line ∈ lines)
    (hsome : Devices.parseLine line mtime = some h) :
    (dictGet h.mac (lines.foldl
      (fun m l =>
        match Devices.parseLine l mtime with
        | some hh => dictUpsert hh.mac hh m
        | none => m)
      acc)).isSome = true := by
  induction lines generalizing acc with
  | nil => cases hline
  | cons l rest ih =>
    rw [List.foldl_cons]
    rcases List.mem_cons.mp hline with hl | hl
    · subst hl
      rw [hsome]
      refine buildHostsLines_key_mono rest mtime _ _ ?_
      rw [dictGet_isSome_upsert]
      exact Or.inl rfl
    · exact ih _ hl

/-- The right strip is Mathlib's `rdropWhile`. -/
theorem pyRstrip_eq (s : Str) : pyRstrip s = List.rdropWhile pyIsSpace s := rfl

theorem pyStrip_idem (s : Str) : pyStrip (pyStrip s) = pyStrip s := by
  unfold pyStrip pyLstrip
  rw [pyRstrip_eq, pyRstrip_eq]
  have h1 : List.dropWhile pyIsSpace
      (List.rdropWhile pyIsSpace (List.dropWhile pyIsSpace s)) =
      List.rdropWhile pyIsSpace (List.dropWhile pyIsSpace s) := by
    rw [List.dropWhile_eq_self_iff]
    intro hl
    obtain ⟨t, ht⟩ := List.rdropWhile_prefix pyIsSpace
      (List.dropWhile pyIsSpace s)
    have hl' : 0 < (List.dropWhile pyIsSpace s).length := by
      rw [← ht, List.length_append]
      omega
    have hnot := List.dropWhile_get_zero_not pyIsSpace s hl'
    suffices heq : (List.rdropWhile pyIsSpace (List.dropWhile pyIsSpace s)).get
        ⟨0, hl⟩ = (List.dropWhile pyIsSpace s).get ⟨0, hl'⟩ by
      rw [heq]
      exact hnot
    have e1 : (List.dropWhile pyIsSpace s)[0]? =
        (List.rdropWhile pyIsSpace (List.dropWhile pyIsSpace s))[0]? := by
      conv_lhs => rw [← ht]
      exact List.getElem?_append_left hl
    rw [List.getElem?_eq_getElem hl', List.getElem?_eq_getElem hl] at e1
    simp only [List.get_eq_getElem]
    exact (Option.some_inj.mp e1).symm
  rw [h1, List.rdropWhile_idempotent]

/-- Unfolding equation of `_normalize_mac`. -/
theorem normalizeMac_eq (r : Str) :
    Devices.normalizeMac r =
      if macRe (pyStrip r) = true
      then some (pyDashToColon (pyUpper (pyStrip r))) else none := rfl

theorem parseLine_isSome_iff (line : Str) (mtime : Int) :
    (Devices.parseLine line mtime).isSome = true ↔
      (pyStrip line ≠ [] ∧ startsWithChar '#' (pyStrip line) = false ∧
        5 ≤ (pySplit ';' (pyStrip line)).length ∧
        macRe (pyStrip ((Devices.rowFields line).getD 3 [])) = true) := by
  unfold Devices.parseLine
  dsimp only
  by_cases h1 : pyStrip line = []
  · simp [h1]
  by_cases h2 : startsWithChar '#' (pyStrip line) = true
  · simp [h1, h2]
  by_cases h3 : (pySplit ';' (pyStrip line)).length < 5
  · rw [if_neg h1, if_neg h2, if_pos h3]
    simp only [Option.isSome_none, Bool.false_eq_true, false_iff]
    intro hc
    omega
  · rw [if_neg h1, if_neg h2, if_neg h3]
    rw [normalizeMac_eq]
    simp only [pyStrip_idem]
    have hr : Devices.padTo15 (List.take 15 (pySplit ';' (pyStrip line))) =
        Devices.rowFields line := rfl
    rw [hr]
    by_cases hm : macRe (pyStrip ((Devices.rowFields line).getD 3 [])) = true
    · rw [if_pos hm]
      simp only [Option.isSome_some, true_iff]
      exact ⟨h1, by simpa using h2, by omega, hm⟩
    · rw [if_neg hm]
      simp only [Option.isSome_none, Bool.false_eq_true, false_iff]
      intro hc
      exact hm hc.2.2.2

theorem parseLine_fields (line : Str) (mtime : Int) (h : Devices.HostData)
    (hp : Devices.parseLine line mtime = some h) :
    h.mac =
        pyDashToColon (pyUpper (pyStrip ((Devices.rowFields line).getD 3 []))) ∧
      (h.pxeEnabled = true ↔
        (0 < h.pxeFlag ∧ pyLower h.hostgroup ≠ pys "nopxe")) := by
  unfold Devices.parseLine at hp
  dsimp only at hp
  by_cases h1 : pyStrip line = []
  · rw [if_pos h1] at hp
    cases hp
  rw [if_neg h1] at hp
  by_cases h2 : startsWithChar '#' (pyStrip line) = true
  · rw [if_pos h2] at hp
    cases hp
  rw [if_neg h2] at hp
  by_cases h3 : (pySplit ';' (pyStrip line)).length < 5
  · rw [if_pos h3] at hp
    cases hp
  rw [if_neg h3] at hp
  rw [normalizeMac_eq] at hp
  simp only [pyStrip_idem] at hp
  have hr : Devices.padTo15 (List.take 15 (pySplit ';' (pyStrip line))) =
      Devices.rowFields line := rfl
  rw [hr] at hp
  by_cases hm : macRe (pyStrip ((Devices.rowFields line).getD 3 [])) = true
  · rw [if_pos hm] at hp
    dsimp only at hp
    rw [Option.some_inj] at hp
    subst hp
    exact ⟨rfl, by simp⟩
  · rw [if_neg hm] at hp
    cases hp

/-- Counterexample to claim C3 as stated: a comment line (leading `'#'`)
with five semicolon-separated fields and a valid MAC in the fourth field
is nevertheless absent from the host map, so the map does not contain
exactly the rows with at least five fields and a valid MAC. -/
theorem devices_rows_counterexample :
    5 ≤ (pySplit ';' (pyStrip (pys "#r;h;c;aa:bb:cc:dd:ee:ff;1.2.3.4"))).length ∧
      macRe (pyStrip ((Devices.rowFields
        (pys "#r;h;c;aa:bb:cc:dd:ee:ff;1.2.3.4")).getD 3 [])) = true ∧
      Devices.buildHosts (pys "#r;h;c;aa:bb:cc:dd:ee:ff;1.2.3.4") 0 = [] :=
  ⟨by decide, by decide, by decide⟩

/-- Claim C3 amended: the host map contains exactly the rows that are
non-blank, are not comments (no leading `'#'` after trimming), have at
least five semicolon-separated fields and a valid MAC; each stored
record's `mac` is the uppercase colon-separated normalization of the raw
MAC field, `pxeEnabled` equals `pxeFlag > 0 ∧ lowercase(config) ≠
"nopxe"`, and on duplicate MACs the later row's record overwrites the
earlier one. -/
theorem devices_load_row_semantics (text : Str) (mtime : Int) :
    (∀ p ∈ Devices.buildHosts text mtime, ∃ line ∈ pySplitlines text,
      Devices.parseLine line mtime = some p.2 ∧ p.1 = p.2.mac) ∧
      (∀ line ∈ pySplitlines text, ∀ h,
        Devices.parseLine line mtime = some h →
        (dictGet h.mac (Devices.buildHosts text mtime)).isSome = true) ∧
      (∀ ls l h, Devices.parseLine l mtime = some h →
        dictGet h.mac (Devices.buildHostsLines (ls ++ [l]) mtime) = some h) ∧
      (∀ line, (Devices.parseLine line mtime).isSome = true ↔
        (pyStrip line ≠ [] ∧ startsWithChar '#' (pyStrip line) = false ∧
          5 ≤ (pySplit ';' (pyStrip line)).length ∧
          macRe (pyStrip ((Devices.rowFields line).getD 3 [])) = true)) ∧
      (∀ line h, Devices.parseLine line mtime = some h →
        h.mac = pyDashToColon
            (pyUpper (pyStrip ((Devices.rowFields line).getD 3 []))) ∧
          (h.pxeEnabled = true ↔
            (0 < h.pxeFlag ∧ pyLower h.hostgroup ≠ pys "nopxe"))) := by
  refine ⟨?_, ?_, ?_, ?_, ?_⟩
  · intro p hp
    exact (mem_buildHostsLines (pySplitlines text) mtime [] p hp).resolve_left
      (List.not_mem_nil p)
  · intro line hline h hsome
    exact buildHostsLines_key_of_mem (pySplitlines text) mtime [] line h
      hline hsome
  · intro ls l h hsome
    unfold Devices.buildHostsLines
    rw [List.foldl_append, List.foldl_cons, List.foldl_nil, hsome]
    exact dictGet_upsert_self h.mac h _
  · exact fun line => parseLine_isSome_iff line mtime
  · exact fun line h => parseLine_fields line mtime h

/-- Witness for C3 (amended): a concrete accepted row, via the acceptance
characterization. -/
theorem devices_load_row_semantics_witness :
    (Devices.parseLine (pys "r;h1;cfg;aa-bb:cc:dd:ee:01;1.2.3.4") 0).isSome =
      true :=
  ((devices_load_row_semantics (pys "r;h1;cfg;aa-bb:cc:dd:ee:01;1.2.3.4")
      0).2.2.2.1 (pys "r;h1;cfg;aa-bb:cc:dd:ee:01;1.2.3.4")).mpr
    ⟨by decide, by decide, by decide, by decide⟩

/-! ## Claim C9: start.conf parser totality and skip rules -/

/-- Claim C9: the start.conf parser is total — it always yields a
`LinboData` plus partition and OS lists — and on every line: lines that
are blank or comments are skipped, lines without `'='` outside a section
header are skipped, `key = value` lines before any section and under an
unrecognized section are ignored, unknown keys in each section are
ignored, boolean values other than `yes`/`true`/`1` (case-insensitively)
parse to `false`, and empty or non-integer values fall back to the
per-key default. -/
theorem startconf_parser_semantics :
    (∀ text, ∃ l ps os, StartConf.parseStartconf text = (l, ps, os)) ∧
      (∀ (st : StartConf.PState) line,
        pyStrip line = [] ∨ startsWithChar '#' (pyStrip line) = true →
        StartConf.processLine st line = st) ∧
      (∀ (st : StartConf.PState) line, pyStrip line ≠ [] →
        startsWithChar '#' (pyStrip line) = false →
        (startsWithChar '[' (StartConf.headerCommentStrip (pyStrip line)) &&
          endsWithChar ']'
            (StartConf.headerCommentStrip (pyStrip line))) = false →
        (StartConf.headerCommentStrip (pyStrip line)).contains '=' = false →
        StartConf.processLine st line = st) ∧
      (∀ (st : StartConf.PState) line, pyStrip line ≠ [] →
        startsWithChar '#' (pyStrip line) = false →
        (startsWithChar '[' (StartConf.headerCommentStrip (pyStrip line)) &&
          endsWithChar ']'
            (StartConf.headerCommentStrip (pyStrip line))) = false →
        (StartConf.headerCommentStrip (pyStrip line)).contains '=' = true →
        st.currentSection = none →
        StartConf.processLine st line = st) ∧
      (∀ (st : StartConf.PState) line sec, pyStrip line ≠ [] →
        startsWithChar '#' (pyStrip line) = false →
        (startsWithChar '[' (StartConf.headerCommentStrip (pyStrip line)) &&
          endsWithChar ']'
            (StartConf.headerCommentStrip (pyStrip line))) = false →
        (StartConf.headerCommentStrip (pyStrip line)).contains '=' = true →
        st.currentSection = some sec → sec ≠ pys "LINBO" →
        sec ≠ pys "PARTITION" → sec ≠ pys "OS" →
        StartConf.processLine st line = st) ∧
      (∀ l k v, k ∉ StartConf.linboKeys → StartConf.applyLinbo l k v = l) ∧
      (∀ p k v, k ∉ StartConf.partitionKeys →
        StartConf.applyPartition p k v = p) ∧
      (∀ o k v, k ∉ StartConf.osKeys → StartConf.applyOs o k v = o) ∧
      (∀ v, pyLower (pyStrip v) ≠ pys "yes" →
        pyLower (pyStrip v) ≠ pys "true" → pyLower (pyStrip v) ≠ pys "1" →
        StartConf.parseBool v = false) ∧
      (∀ v d, pyStrip v = [] ∨ pyParseInt (pyStrip v) = none →
        StartConf.parseIntDef v d = d) := by
  refine ⟨?_, ?_, ?_, ?_, ?_, ?_, ?_, ?_, ?_, ?_⟩
  · intro text
    exact ⟨_, _, _, rfl⟩
  · intro st line h
    unfold StartConf.processLine
    dsimp only
    rcases h with h | h
    · rw [if_pos h]
    · by_cases h1 : pyStrip line = []
      · rw [if_pos h1]
      · rw [if_neg h1, if_pos h]
  · intro st line h1 h2 h3 h4
    unfold StartConf.processLine
    dsimp only
    rw [if_neg h1, h2, if_neg (by simp), h3, if_neg (by simp), h4]
    simp
  · intro st line h1 h2 h3 h4 h5
    unfold StartConf.processLine
    dsimp only
    rw [if_neg h1, h2, if_neg (by simp), h3, if_neg (by simp), h4]
    simp only [Bool.not_true, Bool.false_eq_true, if_false, h5]
  · intro st line sec h1 h2 h3 h4 h5 hs1 hs2 hs3
    unfold StartConf.processLine
    dsimp only
    rw [if_neg h1, h2, if_neg (by simp), h3, if_neg (by simp), h4]
    simp only [Bool.not_true, Bool.false_eq_true, if_false, h5]
    rw [if_neg hs1, if_neg hs2, if_neg hs3]
  · intro l k v hk
    simp only [StartConf.linboKeys, List.mem_cons, List.not_mem_nil, or_false,
      not_or] at hk
    obtain ⟨k1, k2, k3, k4, k5, k6, k7, k8, k9, k10, k11, k12, k13, k14⟩ := hk
    unfold StartConf.applyLinbo
    rw [if_neg k1, if_neg k2, if_neg k3, if_neg k4, if_neg k5, if_neg k6,
      if_neg k7, if_neg k8, if_neg k9, if_neg k10, if_neg k11, if_neg k12,
      if_neg k13, if_neg k14]
  · intro p k v hk
    simp only [StartConf.partitionKeys, List.mem_cons, List.not_mem_nil,
      or_false, not_or] at hk
    obtain ⟨k1, k2, k3, k4, k5, k6⟩ := hk
    unfold StartConf.applyPartition
    rw [if_neg k1, if_neg k2, if_neg k3, if_neg k4, if_neg k5, if_neg k6]
  · intro o k v hk
    simp only [StartConf.osKeys, List.mem_cons, List.not_mem_nil, or_false,
      not_or] at hk
    obtain ⟨k1, k2, k3, k4, k5, k6, k7, k8, k9, k10, k11, k12, k13, k14, k15,
      k16, k17⟩ := hk
    unfold StartConf.applyOs
    rw [if_neg k1, if_neg k2, if_neg k3, if_neg k4, if_neg k5, if_neg k6,
      if_neg k7, if_neg k8, if_neg k9, if_neg k10, if_neg k11, if_neg k12,
      if_neg k13, if_neg k14, if_neg k15, if_neg k16, if_neg k17]
  · intro v h1 h2 h3
    unfold StartConf.parseBool
    simp [h1, h2, h3]
  · intro v d h
    unfold StartConf.parseIntDef
    dsimp only
    by_cases he : pyStrip v = []
    · rw [if_pos he]
    · rw [if_neg he]
      rcases h with h | h
      · exact absurd h he
      · rw [h]

/-- Witness for C9 at concrete lines: a line without `'='`, a `key=value`
line before any section, an unknown key, a non-boolean value and a bad
integer, all leave the state (or the parsed value) at its default. -/
theorem startconf_parser_semantics_witness :
    StartConf.processLine StartConf.pstateInit (pys "just some words") =
        StartConf.pstateInit ∧
      StartConf.processLine StartConf.pstateInit (pys "Server = x") =
        StartConf.pstateInit ∧
      StartConf.applyLinbo StartConf.linboInit (pys "flurb") (pys "1") =
        StartConf.linboInit ∧
      StartConf.parseBool (pys "maybe") = false ∧
      StartConf.parseIntDef (pys "abc") 5 = 5 :=
  ⟨startconf_parser_semantics.2.2.1 StartConf.pstateInit
      (pys "just some words") (by decide) (by decide) (by decide) (by decide),
    startconf_parser_semantics.2.2.2.1 StartConf.pstateInit (pys "Server = x")
      (by decide) (by decide) (by decide) (by decide) rfl,
    startconf_parser_semantics.2.2.2.2.2.1 StartConf.linboInit (pys "flurb")
      (pys "1") (by decide),
    startconf_parser_semantics.2.2.2.2.2.2.2.2.1 (pys "maybe") (by decide)
      (by decide) (by decide),
    startconf_parser_semantics.2.2.2.2.2.2.2.2.2 (pys "abc") 5
      (Or.inr (by decide))⟩

/-! ## Claim C1: provisioning merge and conflict check (corrected) -/

/-- Branch equation of `mergeRowSpec`: blank and comment rows are kept. -/
theorem mergeRowSpec_comment (dmap : List (Str × List Str))
    (deleted : List Str) (line : Str)
    (h1 : pyStrip line = [] ∨ startsWithChar '#' (pyStrip line) = true) :
    Worker.mergeRowSpec dmap deleted line = some line := by
  unfold Worker.mergeRowSpec
  dsimp only
  rw [if_pos h1]

theorem mergeRowSpec_short (dmap : List (Str × List Str))
    (deleted : List Str) (line : Str)
    (h1 : ¬(pyStrip line = [] ∨ startsWithChar '#' (pyStrip line) = true))
    (h2 : (pySplit ';' (pyStrip line)).length < 2) :
    Worker.mergeRowSpec dmap deleted line = some line := by
  unfold Worker.mergeRowSpec
  dsimp only
  rw [if_neg h1, if_pos h2]

theorem mergeRowSpec_deleted (dmap : List (Str × List Str))
    (deleted : List Str) (line : Str)
    (h1 : ¬(pyStrip line = [] ∨ startsWithChar '#' (pyStrip line) = true))
    (h2 : ¬(pySplit ';' (pyStrip line)).length < 2)
    (h3 : pyLower (pyStrip ((pySplit ';' (pyStrip line)).getD 1 [])) ∈
      deleted) :
    Worker.mergeRowSpec dmap deleted line = none := by
  unfold Worker.mergeRowSpec
  dsimp only
  rw [if_neg h1, if_neg h2, if_pos h3]

theorem mergeRowSpec_lookup (dmap : List (Str × List Str))
    (deleted : List Str) (line : Str)
    (h1 : ¬(pyStrip line = [] ∨ startsWithChar '#' (pyStrip line) = true))
    (h2 : ¬(pySplit ';' (pyStrip line)).length < 2)
    (h3 : pyLower (pyStrip ((pySplit ';' (pyStrip line)).getD 1 [])) ∉
      deleted) :
    Worker.mergeRowSpec dmap deleted line =
      match dictGet (pyLower (pyStrip ((pySplit ';' (pyStrip line)).getD 1 [])))
          dmap with
      | some dp =>
        some (pyJoin ';' (Worker.patchParts (pySplit ';' (pyStrip line)) dp) ++
          ['\n'])
      | none => some line := by
  unfold Worker.mergeRowSpec
  dsimp only
  rw [if_neg h1, if_neg h2, if_neg h3]

theorem mergeWalk_fst (dmap : List (Str × List Str)) (deleted : List Str)
    (lines seen : List Str) :
    (Worker.mergeWalk dmap deleted lines seen).1 =
      lines.filterMap (Worker.mergeRowSpec dmap deleted) := by
  induction lines generalizing seen with
  | nil => rfl
  | cons line rest ih =>
    rw [List.filterMap_cons]
    unfold Worker.mergeWalk
    dsimp only
    by_cases h1 : pyStrip line = [] ∨ startsWithChar '#' (pyStrip line) = true
    · rw [if_pos h1, mergeRowSpec_comment dmap deleted line h1]
      dsimp only
      rw [ih]
    · rw [if_neg h1]
      by_cases h2 : (pySplit ';' (pyStrip line)).length < 2
      · rw [if_pos h2, mergeRowSpec_short dmap deleted line h1 h2]
        dsimp only
        rw [ih]
      · rw [if_neg h2]
        by_cases h3 :
            pyLower (pyStrip ((pySplit ';' (pyStrip line)).getD 1 [])) ∈ deleted
        · rw [if_pos h3, mergeRowSpec_deleted dmap deleted line h1 h2 h3]
          dsimp only
          rw [ih]
        · rw [if_neg h3, mergeRowSpec_lookup dmap deleted line h1 h2 h3]
          cases hd : dictGet
              (pyLower (pyStrip ((pySplit ';' (pyStrip line)).getD 1 [])))
              dmap with
          | none =>
            dsimp only
            rw [ih]
          | some dp =>
            dsimp only
            rw [ih]

theorem mem_setAdd (x h : Str) (s : List Str) :
    x ∈ Worker.setAdd h s ↔ x = h ∨ x ∈ s := by
  unfold Worker.setAdd
  by_cases hm : h ∈ s
  · rw [if_pos hm]
    constructor
    · exact Or.inr
    · rintro (rfl | hx)
      · exact hm
      · exact hx
  · rw [if_neg hm]
    simp [List.mem_append, or_comm]

theorem seenHostsOf_cons_skip (line : Str) (rest : List Str)
    (h : pyStrip line = [] ∨ startsWithChar '#' (pyStrip line) = true ∨
      (pySplit ';' (pyStrip line)).length < 2) :
    Worker.seenHostsOf (line :: rest) = Worker.seenHostsOf rest := by
  unfold Worker.seenHostsOf
  rw [List.filterMap_cons]
  dsimp only
  rcases h with h | h | h
  · rw [if_pos (Or.inl h)]
  · rw [if_pos (Or.inr h)]
  · by_cases h1 : pyStrip line = [] ∨ startsWithChar '#' (pyStrip line) = true
    · rw [if_pos h1]
    · rw [if_neg h1, if_pos h]

theorem seenHostsOf_cons_data (line : Str) (rest : List Str)
    (h1 : ¬(pyStrip line = [] ∨ startsWithChar '#' (pyStrip line) = true))
    (h2 : ¬(pySplit ';' (pyStrip line)).length < 2) :
    Worker.seenHostsOf (line :: rest) =
      pyLower (pyStrip ((pySplit ';' (pyStrip line)).getD 1 [])) ::
        Worker.seenHostsOf rest := by
  unfold Worker.seenHostsOf
  rw [List.filterMap_cons]
  dsimp only
  rw [if_neg h1, if_neg h2]

theorem mergeWalk_snd_mem (dmap : List (Str × List Str)) (deleted : List Str)
    (lines seen : List Str) (x : Str) :
    x ∈ (Worker.mergeWalk dmap deleted lines seen).2 ↔
      x ∈ seen ∨ x ∈ Worker.seenHostsOf lines := by
  induction lines generalizing seen with
  | nil => simp [Worker.mergeWalk, Worker.seenHostsOf]
  | cons line rest ih =>
    unfold Worker.mergeWalk
    dsimp only
    by_cases h1 : pyStrip line = [] ∨ startsWithChar '#' (pyStrip line) = true
    · rw [if_pos h1, seenHostsOf_cons_skip line rest (by tauto)]
      dsimp only
      rw [ih]
    · rw [if_neg h1]
      by_cases h2 : (pySplit ';' (pyStrip line)).length < 2
      · rw [if_pos h2, seenHostsOf_cons_skip line rest (by tauto)]
        dsimp only
        rw [ih]
      · rw [if_neg h2, seenHostsOf_cons_data line rest h1 h2]
        by_cases h3 :
            pyLower (pyStrip ((pySplit ';' (pyStrip line)).getD 1 [])) ∈ deleted
        · rw [if_pos h3]
          rw [ih, mem_setAdd]
          simp only [List.mem_cons]
          tauto
        · rw [if_neg h3]
          cases hd : dictGet
              (pyLower (pyStrip ((pySplit ';' (pyStrip line)).getD 1 [])))
              dmap with
          | none =>
            dsimp only
            rw [ih, mem_setAdd]
            simp only [List.mem_cons]
            tauto
          | some dp =>
            dsimp only
            rw [ih, mem_setAdd]
            simp only [List.mem_cons]
            tauto

theorem mergeAppendRows_congr (dmap : List (Str × List Str))
    (deleted s1 s2 : List Str) (cols : Nat)
    (h : ∀ x, x ∈ s1 ↔ x ∈ s2) :
    Worker.mergeAppendRows dmap deleted s1 cols =
      Worker.mergeAppendRows dmap deleted s2 cols := by
  unfold Worker.mergeAppendRows
  refine List.filterMap_congr ?_
  intro p _
  by_cases hp : p.1 ∈ s2
  · rw [if_neg (by simp [hp, h p.1]), if_neg (by simp [hp])]
  · by_cases hd : p.1 ∈ deleted
    · rw [if_neg (by simp [hd]), if_neg (by simp [hd])]
    · rw [if_pos ⟨fun hx => hp ((h p.1).mp hx), hd⟩, if_pos ⟨hp, hd⟩]

theorem merge_eq_spec (masterLines deltaLines deleted : List Str) :
    Worker.merge masterLines deltaLines deleted =
      masterLines.filterMap
          (Worker.mergeRowSpec (Worker.deltaMapOf deltaLines) deleted) ++
        Worker.mergeAppendRows (Worker.deltaMapOf deltaLines) deleted
          (Worker.seenHostsOf masterLines)
          (Worker.masterColsOf masterLines) := by
  unfold Worker.merge
  dsimp only
  rw [mergeWalk_fst]
  congr 1
  refine mergeAppendRows_congr _ _ _ _ _ ?_
  intro x
  rw [mergeWalk_snd_mem]
  simp

theorem rowMac_none (line : Str)
    (h : pyStrip line = [] ∨ startsWithChar '#' (pyStrip line) = true ∨
      (pySplit ';' (pyStrip line)).length < 5) :
    Worker.rowMac line = none := by
  unfold Worker.rowMac Worker.rowFieldsOf
  dsimp only
  rcases h with h | h | h
  · rw [if_pos (Or.inl h)]
    rfl
  · rw [if_pos (Or.inr h)]
    rfl
  · by_cases h1 : pyStrip line = [] ∨ startsWithChar '#' (pyStrip line) = true
    · rw [if_pos h1]
      rfl
    · rw [if_neg h1, if_pos h]
      rfl

theorem rowHost_data (line : Str)
    (h1 : ¬(pyStrip line = [] ∨ startsWithChar '#' (pyStrip line) = true))
    (h2 : ¬(pySplit ';' (pyStrip line)).length < 5) :
    Worker.rowHost line =
      some (pyLower (pyStrip ((pySplit ';' (pyStrip line)).getD 1 []))) := by
  unfold Worker.rowHost Worker.rowFieldsOf
  dsimp only
  rw [if_neg h1, if_neg h2]
  rfl

theorem rowMac_data (line : Str)
    (h1 : ¬(pyStrip line = [] ∨ startsWithChar '#' (pyStrip line) = true))
    (h2 : ¬(pySplit ';' (pyStrip line)).length < 5) :
    Worker.rowMac line =
      some (pyUpper (pyStrip ((pySplit ';' (pyStrip line)).getD 3 []))) := by
  unfold Worker.rowMac Worker.rowFieldsOf
  dsimp only
  rw [if_neg h1, if_neg h2]
  rfl

theorem checkConflictsLoop_none_sound (hostname mac ip : Str)
    (lines : List Str)
    (hn : Worker.checkConflictsLoop hostname mac ip lines = none)
    (hm : mac ≠ []) :
    ∀ l ∈ lines, Worker.rowHost l ≠ some hostname →
      Worker.rowMac l ≠ some mac := by
  induction lines with
  | nil =>
    intro l hl
    cases hl
  | cons line rest ih =>
    intro l hl hhost
    unfold Worker.checkConflictsLoop at hn
    dsimp only at hn
    by_cases h1 : pyStrip line = [] ∨ startsWithChar '#' (pyStrip line) = true
    · rw [if_pos h1] at hn
      rcases List.mem_cons.mp hl with rfl | hl'
      · rw [rowMac_none l (by tauto)]
        exact fun hc => Option.noConfusion hc
      · exact ih hn l hl' hhost
    · rw [if_neg h1] at hn
      by_cases h2 : (pySplit ';' (pyStrip line)).length < 5
      · rw [if_pos h2] at hn
        rcases List.mem_cons.mp hl with rfl | hl'
        · rw [rowMac_none l (by tauto)]
          exact fun hc => Option.noConfusion hc
        · exact ih hn l hl' hhost
      · rw [if_neg h2] at hn
        by_cases h3 :
            pyLower (pyStrip ((pySplit ';' (pyStrip line)).getD 1 [])) = hostname
        · rw [if_pos h3] at hn
          rcases List.mem_cons.mp hl with rfl | hl'
          · exact absurd (by rw [rowHost_data l h1 h2, h3]) hhost
          · exact ih hn l hl' hhost
        · rw [if_neg h3] at hn
          by_cases h4 : mac ≠ [] ∧
              pyUpper (pyStrip ((pySplit ';' (pyStrip line)).getD 3 [])) = mac
          · rw [if_pos h4] at hn
            cases hn
          · rw [if_neg h4] at hn
            by_cases h5 : ip ≠ [] ∧ ip ≠ pys "DHCP" ∧
                pyStrip ((pySplit ';' (pyStrip line)).getD 4 []) = ip ∧
                pyStrip ((pySplit ';' (pyStrip line)).getD 4 []) ≠ pys "DHCP"
            · rw [if_pos h5] at hn
              cases hn
            · rw [if_neg h5] at hn
              rcases List.mem_cons.mp hl with rfl | hl'
              · rw [rowMac_data l h1 h2]
                intro hc
                rw [Option.some_inj] at hc
                exact h4 ⟨hm, hc⟩
              · exact ih hn l hl' hhost

/-- Counterexample to claim C1 as stated: a batch of two create jobs
against a master holding `h1` with MAC `AA:BB:CC:DD:EE:01`, where the
second job `h3` reuses that MAC.  The conflict check marks `h3` failed,
but its delta row is not removed from the already merged view, and since
the other job `h2` survives, the batch commits — the committed master
then has two rows with the same MAC. -/
theorem provision_commit_mac_dup_counterexample :
    (Worker.commitBatch [pys "r1;h1;cfg;AA:BB:CC:DD:EE:01;10.0.0.1\n"]
        [pys "# managed\n"]
        [⟨pys "create", pys "h2", none, pys "cfg", pys "AA:BB:CC:DD:EE:02", [],
          pys "r1", false⟩,
         ⟨pys "create", pys "h3", none, pys "cfg", pys "aa:bb:cc:dd:ee:01", [],
          pys "r1", false⟩]).map
      (fun m => hasDup (m.filterMap Worker.rowMac)) = some true := by decide

/-- Claim C1 amended: for every committed (non-dry-run) batch, the merged
master equals the row-wise image of the old master — a row whose hostname
is deleted is omitted, a row whose hostname is in the delta map takes
columns 0-4 from the delta row and keeps the rest, every other row is
kept verbatim — followed by the padded new delta rows; and every job that
PASSES the per-job conflict check has a MAC distinct from every merged
row of a different hostname (jobs that fail the check are excluded from
the batch, but their rows remain in the committed view, so global MAC
uniqueness does not hold — see the counterexample). -/
theorem provision_commit_frame_and_conflicts (masterLines delta0 : List Str)
    (jobs : List Worker.Job) (merged : List Str)
    (hc : Worker.commitBatch masterLines delta0 jobs = some merged) :
    merged =
        masterLines.filterMap
            (Worker.mergeRowSpec
              (Worker.deltaMapOf (Worker.applyJobs jobs delta0 []).1)
              (Worker.applyJobs jobs delta0 []).2) ++
          Worker.mergeAppendRows
            (Worker.deltaMapOf (Worker.applyJobs jobs delta0 []).1)
            (Worker.applyJobs jobs delta0 []).2
            (Worker.seenHostsOf masterLines)
            (Worker.masterColsOf masterLines) ∧
      (∀ j ∈ jobs, Worker.checkConflicts j.action j merged = none →
        j.action ≠ pys "delete" → pyUpper j.mac ≠ [] →
        ∀ l ∈ merged, Worker.rowHost l ≠ some (pyLower j.hostname) →
          Worker.rowMac l ≠ some (pyUpper j.mac)) := by
  constructor
  · unfold Worker.commitBatch at hc
    dsimp only at hc
    cases hs : jobs.filter
        (fun j => (Worker.checkConflicts j.action j
          (Worker.merge masterLines (Worker.applyJobs jobs delta0 []).1
            (Worker.applyJobs jobs delta0 []).2)).isNone) with
    | nil =>
      rw [hs] at hc
      cases hc
    | cons j js =>
      rw [hs] at hc
      dsimp only at hc
      by_cases hd : j.dryRun = true
      · rw [if_pos hd] at hc
        cases hc
      · rw [if_neg hd] at hc
        rw [Option.some_inj] at hc
        rw [← hc, merge_eq_spec]
  · intro j hj hcc hna hmne l hl hrh
    unfold Worker.checkConflicts at hcc
    rw [if_neg hna] at hcc
    exact checkConflictsLoop_none_sound (pyLower j.hostname) (pyUpper j.mac)
      j.ip merged hcc hmne l hl hrh

/-- Witness for C1 (amended): a one-job create batch against an empty
master commits, and the theorem's frame and conflict conclusions hold for
it. -/
theorem provision_commit_frame_and_conflicts_witness :
    (Worker.commitBatch [] []
        [⟨pys "create", pys "h2", none, pys "cfg", pys "AA:BB:CC:DD:EE:02", [],
          pys "r1", false⟩] =
      some [pys "r1;h2;cfg;AA:BB:CC:DD:EE:02;DHCP\n"]) ∧
      ([pys "r1;h2;cfg;AA:BB:CC:DD:EE:02;DHCP\n"] =
          List.filterMap
              (Worker.mergeRowSpec
                (Worker.deltaMapOf
                  (Worker.applyJobs
                    [⟨pys "create", pys "h2", none, pys "cfg",
                      pys "AA:BB:CC:DD:EE:02", [], pys "r1", false⟩] [] []).1)
                (Worker.applyJobs
                  [⟨pys "create", pys "h2", none, pys "cfg",
                    pys "AA:BB:CC:DD:EE:02", [], pys "r1", false⟩] [] []).2)
              [] ++
            Worker.mergeAppendRows
              (Worker.deltaMapOf
                (Worker.applyJobs
                  [⟨pys "create", pys "h2", none, pys "cfg",
                    pys "AA:BB:CC:DD:EE:02", [], pys "r1", false⟩] [] []).1)
              (Worker.applyJobs
                [⟨pys "create", pys "h2", none, pys "cfg",
                  pys "AA:BB:CC:DD:EE:02", [], pys "r1", false⟩] [] []).2
              (Worker.seenHostsOf []) (Worker.masterColsOf []) ∧
        (∀ j ∈ [(⟨pys "create", pys "h2", none, pys "cfg",
            pys "AA:BB:CC:DD:EE:02", [], pys "r1", false⟩ : Worker.Job)],
          Worker.checkConflicts j.action j
              [pys "r1;h2;cfg;AA:BB:CC:DD:EE:02;DHCP\n"] = none →
          j.action ≠ pys "delete" → pyUpper j.mac ≠ [] →
          ∀ l ∈ [pys "r1;h2;cfg;AA:BB:CC:DD:EE:02;DHCP\n"],
            Worker.rowHost l ≠ some (pyLower j.hostname) →
            Worker.rowMac l ≠ some (pyUpper j.mac))) :=
  ⟨by decide,
    provision_commit_frame_and_conflicts [] []
      [⟨pys "create", pys "h2", none, pys "cfg", pys "AA:BB:CC:DD:EE:02", [],
        pys "r1", false⟩]
      [pys "r1;h2;cfg;AA:BB:CC:DD:EE:02;DHCP\n"] (by decide)⟩
